import Mathlib

/-!
# Verification of the aiarr watch-history consolidation engine and request providers

Shallow embedding of the core of the `aiarr` repository:

* `Jellyfin.get_items_filtered` (src/server/src/services/jellyfin.py) and
  `Plex.get_items_filtered` (src/server/src/services/plex.py): the
  consolidation engines that merge raw watch events into canonical media
  items keyed by name.
* `JellyseerrProvider.lookup_media` / `add_media` / `get_quality_profiles` /
  `get_users` (src/server/src/providers/jellyseerr.py): the request-provider
  operations and their uniform `APIResult` envelope.
* The adapter queries `get_recently_watched` / `get_favorites` /
  `get_all_items` of both services, with the HTTP transport abstracted as a
  value describing the outcome of the network interaction.

Python semantics modelled explicitly:

* Optional values are `Option`; Python truthiness of a string is
  "not `None` and not empty"; truthiness of an integer is "not `None` and
  not `0`".
* Python dictionaries preserve insertion order; the name-keyed
  consolidation map is embedded as an insertion-ordered association list of
  `ItemsFiltered` records keyed by their `name` field.
* A Python comparison `str > None` raises `TypeError`; code paths that can
  raise are embedded in `Except Unit`, with `.error ()` standing for an
  escaped exception.
* ISO-8601 timestamps are kept as the strings the code compares; the code
  itself compares them with Python string `>`, embedded as `String <`.
-/

/-- The canonical media item (`ItemsFiltered` in `services/models.py`).
Modelled from the spec: `services/models.py` is not part of the provided
sources; §3 of the spec gives the field list — `name` (the consolidation
key), `id`, `type` (`movie`/`tv`), `last_played_date` (ISO-8601 string or
absent), `play_count` (integer or absent), `is_favorite` (boolean or
absent).  The constructors in the two services supply every field, so the
record is a plain product of optional fields with a mandatory name. -/
structure ItemsFiltered where
  name : String
  id : Option String
  type : String
  last_played_date : Option String
  play_count : Option Int
  is_favorite : Option Bool
deriving Repr, DecidableEq

/-- Python `str.lower()` restricted to character-wise lowering, which on
the ASCII attribute names the code compares is exact. -/
def pyLower (s : String) : String := ⟨s.data.map Char.toLower⟩

/-- Python truthiness of an optional string: `None` and `""` are falsy. -/
def truthyStr : Option String → Bool
  | none => false
  | some s => !(s = "")

/-- Python truthiness of an optional integer: `None` and `0` are falsy. -/
def truthyInt : Option Int → Bool
  | none => false
  | some n => !(n = 0)

/-! ## Jellyfin raw items and consolidation -/

/-- The `UserData` sub-dictionary of a raw Jellyfin item: the three fields
`get_items_filtered` reads from it. -/
structure JUserData where
  lastPlayedDate : Option String
  playCount : Option Int
  isFavorite : Option Bool
deriving Repr, DecidableEq

/-- A raw Jellyfin item as consumed by `Jellyfin.get_items_filtered`
(jellyfin.py:178-265): the `Type`, `Name`, `Id`, `SeriesName`, `SeriesId`
and `UserData` keys.  `userData = none` embeds a missing or empty
`UserData` dictionary (both falsy in Python). -/
structure JItem where
  itemType : String
  name : Option String
  id : Option String
  seriesName : Option String
  seriesId : Option String
  userData : Option JUserData
deriving Repr, DecidableEq

/-- A classified raw event: name, id, type plus the user-data triple, as
the loop body of `Jellyfin.get_items_filtered` computes them before the
name check. -/
structure JResolved where
  name : Option String
  id : Option String
  type : String
  last_played_date : Option String
  play_count : Int
  is_favorite : Bool
deriving Repr, DecidableEq

/-- Step 1 of the loop body (jellyfin.py:203-233): extract the user-data
triple (`LastPlayedDate`, `PlayCount` defaulting to `0`, `IsFavorite`
defaulting to `False`) and classify by `Type`: `Episode` resolves to
`SeriesName`/`SeriesId` with type `tv`, `Series` to its own name/id with
`tv`, `Movie` to its own name/id with `movie`; every other type yields
`none` (the `continue`). -/
def jfClassify (it : JItem) : Option JResolved :=
  let lpd := match it.userData with
    | none => none
    | some ud => ud.lastPlayedDate
  let pc : Int := match it.userData with
    | none => 0
    | some ud => ud.playCount.getD 0
  let fav : Bool := match it.userData with
    | none => false
    | some ud => ud.isFavorite.getD false
  if it.itemType = "Episode" then
    some ⟨it.seriesName, it.seriesId, "tv", lpd, pc, fav⟩
  else if it.itemType = "Series" then
    some ⟨it.name, it.id, "tv", lpd, pc, fav⟩
  else if it.itemType = "Movie" then
    some ⟨it.name, it.id, "movie", lpd, pc, fav⟩
  else
    none

/-- Look up an entry by `name` in the insertion-ordered map. -/
def mapFind (m : List ItemsFiltered) (n : String) : Option ItemsFiltered :=
  m.find? (fun e => e.name = n)

/-- Replace (in place) the entry whose `name` is `n`. -/
def mapUpdate (m : List ItemsFiltered) (n : String) (f : ItemsFiltered → ItemsFiltered) :
    List ItemsFiltered :=
  m.map (fun e => if e.name = n then f e else e)

/-- The duplicate-name branch of the Jellyfin merge (jellyfin.py:239-247):
when the current event carries a truthy `LastPlayedDate`, the code runs
`current > existing.last_played_date` on the existing entry.  When the
existing value is `None` this Python comparison raises `TypeError`
(`.error ()`); otherwise the date is replaced exactly when the new string
is strictly greater. -/
def jfMerge (existing : ItemsFiltered) (cur : Option String) :
    Except Unit ItemsFiltered :=
  if truthyStr cur then
    match cur, existing.last_played_date with
    | some d, some e =>
        if e.data < d.data then .ok { existing with last_played_date := some d }
        else .ok existing
    | _, none => .error ()
    | none, _ => .ok existing
  else
    .ok existing

/-- One iteration of the Jellyfin consolidation loop over the
insertion-ordered map. -/
def jfStep (m : List ItemsFiltered) (it : JItem) : Except Unit (List ItemsFiltered) :=
  match jfClassify it with
  | none => .ok m
  | some r =>
    if truthyStr r.name then
      let n := r.name.getD ""
      match mapFind m n with
      | some existing =>
          match jfMerge existing r.last_played_date with
          | .ok merged => .ok (mapUpdate m n (fun _ => merged))
          | .error e => .error e
      | none =>
          .ok (m ++ [⟨n, r.id, r.type, r.last_played_date,
                      some r.play_count, some r.is_favorite⟩])
    else
      .ok m

/-- The consolidation fold of `Jellyfin.get_items_filtered`: the loop over
`items` building `processed_media_map`, with `.error ()` embedding an
escaped `TypeError`. -/
def jfConsolidate (items : List JItem) : Except Unit (List ItemsFiltered) :=
  items.foldlM jfStep []

/-- A Python attribute value, as produced by `getattr` on an
`ItemsFiltered` record. -/
inductive PyVal where
  | null
  | str (s : String)
  | int (n : Int)
  | bool (b : Bool)
deriving Repr, DecidableEq

/-- `getattr(item, attr, "")` on an `ItemsFiltered` record
(jellyfin.py:261): a model field returns its value (`None` becoming
`PyVal.null`), any other attribute name returns the default `""`. -/
def itemGetattr (it : ItemsFiltered) (attr : String) : PyVal :=
  if attr = "name" then .str it.name
  else if attr = "id" then (match it.id with | none => .null | some s => .str s)
  else if attr = "type" then .str it.type
  else if attr = "last_played_date" then
    (match it.last_played_date with | none => .null | some s => .str s)
  else if attr = "play_count" then
    (match it.play_count with | none => .null | some n => .int n)
  else if attr = "is_favorite" then
    (match it.is_favorite with | none => .null | some b => .bool b)
  else .str ""

/-- Result of `get_items_filtered`: either the full list of consolidated
items or a projection produced by an attribute filter. -/
inductive FilteredResult where
  | items (l : List ItemsFiltered)
  | attrs (l : List PyVal)
  | names (l : List String)
deriving Repr, DecidableEq

/-- `Jellyfin.get_items_filtered` (jellyfin.py:178-265).  The `if not
items: return []` early exit returns the same (empty) value the fall-through
computes on an empty input, so it is not modelled separately.  A truthy
`attribute_filter` projects every consolidated item through
`getattr(item, attribute_filter.lower(), "")`; otherwise the item list is
returned. -/
def jellyfin_get_items_filtered (items : List JItem) (attribute_filter : Option String) :
    Except Unit FilteredResult := do
  let m ← jfConsolidate items
  if truthyStr attribute_filter then
    let a := pyLower (attribute_filter.getD "")
    return .attrs (m.map (fun it => itemGetattr it a))
  else
    return .items m

/-! ## Plex raw items and consolidation -/

/-- A raw Plex item as consumed by `Plex.get_items_filtered`
(plex.py:199-295): one of the four handled `plexapi` classes, or an
unhandled one.  Datetime attributes (`viewedAt`, `lastViewedAt`) are
embedded as their `_datetime_to_iso` rendering: that helper maps `None` to
`None` and a datetime to a non-empty ISO-8601 UTC string, order-preserving,
so carrying the rendered string loses nothing the code observes.
`userRating` (a Python float compared against `9.0`) is embedded as a
rational, which has the same ordering on the representable values. -/
inductive PlexItem where
  | episodeHistory (grandparentTitle : String) (grandparentRatingKey : Int)
      (viewedAt : Option String)
  | movieHistory (title : String) (ratingKey : Int) (viewedAt : Option String)
  | show (title : String) (ratingKey : Int) (viewCount : Option Int)
      (userRating : Option ℚ) (lastViewedAt : Option String)
  | movie (title : String) (ratingKey : Int) (viewCount : Option Int)
      (userRating : Option ℚ) (lastViewedAt : Option String)
  | other
deriving Repr, DecidableEq

/-- The locals the Plex loop body computes for one item before the name
check (plex.py:220-266): name, consolidated id, output type, ISO date,
play count and favorite flag. -/
structure PResolved where
  name : String
  id : String
  type : String
  last_played_date : Option String
  play_count : Option Int
  is_favorite : Option Bool
deriving Repr, DecidableEq

/-- Classification by `source_type` (plex.py:229-266).  With
`source_type = "history"` only `EpisodeHistory` (resolved to the
grandparent title/rating key, type `tv`) and `MovieHistory` are handled;
with a library source only `Show` and `Movie` are handled and the
play-count / favorite / last-viewed attributes are read; any other
combination is skipped (`continue`), including every item under an unknown
`source_type`. -/
def plexClassify (sourceType : String) (it : PlexItem) : Option PResolved :=
  if sourceType = "history" then
    match it with
    | .episodeHistory t k v => some ⟨t, toString k, "tv", v, none, none⟩
    | .movieHistory t k v => some ⟨t, toString k, "movie", v, none, none⟩
    | _ => none
  else if sourceType = "library_favorites" ∨ sourceType = "library_all" then
    match it with
    | .show t k vc ur lv =>
        some ⟨t, toString k, "tv", lv, vc, ur.map (fun r => decide (9 ≤ r))⟩
    | .movie t k vc ur lv =>
        some ⟨t, toString k, "movie", lv, vc, ur.map (fun r => decide (9 ≤ r))⟩
    | _ => none
  else
    none

/-- The duplicate-name branch of the Plex merge (plex.py:272-281): the date
is replaced only for a truthy new date under the `history` source and only
when the existing date is falsy or strictly smaller; `play_count` and
`is_favorite` are set only when the event carries a value and the existing
field is still `None` (first-write-wins). -/
def plexMerge (sourceType : String) (existing : ItemsFiltered) (r : PResolved) :
    ItemsFiltered :=
  let afterDate :=
    if truthyStr r.last_played_date ∧ sourceType = "history" then
      if !(truthyStr existing.last_played_date) ∨
          ((existing.last_played_date.getD "").data <
            (r.last_played_date.getD "").data) then
        { existing with last_played_date := r.last_played_date }
      else existing
    else existing
  let afterPc :=
    if r.play_count.isSome ∧ afterDate.play_count = none then
      { afterDate with play_count := r.play_count }
    else afterDate
  if r.is_favorite.isSome ∧ afterPc.is_favorite = none then
    { afterPc with is_favorite := r.is_favorite }
  else afterPc

/-- One iteration of the Plex consolidation loop. -/
def plexStep (sourceType : String) (m : List ItemsFiltered) (it : PlexItem) :
    List ItemsFiltered :=
  match plexClassify sourceType it with
  | none => m
  | some r =>
    if r.name = "" then m
    else
      match mapFind m r.name with
      | some existing => mapUpdate m r.name (fun _ => plexMerge sourceType existing r)
      | none =>
          m ++ [⟨r.name, some r.id, r.type, r.last_played_date,
                 r.play_count, r.is_favorite⟩]

/-- The consolidation fold of `Plex.get_items_filtered`. -/
def plexConsolidate (sourceType : String) (items : List PlexItem) : List ItemsFiltered :=
  items.foldl (plexStep sourceType) []

/-- `Plex.get_items_filtered` (plex.py:199-295).  As for Jellyfin, the
empty-input early exit returns the same empty value the fall-through
computes, so it is not modelled separately.  The attribute filter is
honoured only when it lowercases to `"name"`; any other truthy value falls
into the `else` and returns the full item list. -/
def plex_get_items_filtered (items : List PlexItem) (sourceType : String)
    (attribute_filter : Option String) : FilteredResult :=
  let m := plexConsolidate sourceType items
  if truthyStr attribute_filter ∧ pyLower (attribute_filter.getD "") = "name" then
    .names (m.map (fun it => it.name))
  else
    .items m

/-! ## The uniform provider response envelope and the Jellyseerr provider -/

/-- A JSON-like Python value: what flows through `item_info`, request
payloads and `APIResponse.data`. -/
inductive JsonVal where
  | null
  | str (s : String)
  | int (n : Int)
  | bool (b : Bool)
  | arr (l : List JsonVal)
  | obj (l : List (String × JsonVal))
deriving Repr

/-- Python `v == s` for a JSON-like value against a string literal: only a
string with the same contents compares equal. -/
def jsonEqStr (v : JsonVal) (s : String) : Bool :=
  match v with
  | .str t => t = s
  | _ => false

/-- Python truthiness of a JSON-like value: `None`, `""`, `0`, `False` and
empty containers are falsy. -/
def truthyJson : JsonVal → Bool
  | .null => false
  | .str s => !(s = "")
  | .int n => !(n = 0)
  | .bool b => b
  | .arr l => !l.isEmpty
  | .obj l => !l.isEmpty

/-- Truthiness of a possibly-missing value (a `dict.get` result). -/
def truthyOpt : Option JsonVal → Bool
  | none => false
  | some v => truthyJson v

/-- `d.get(k)` on an embedded dictionary. -/
def dget (d : List (String × JsonVal)) (k : String) : Option JsonVal :=
  (d.find? (fun p => p.1 = k)).map (fun p => p.2)

/-- Python `str(v)` as used in f-string interpolation.  Container
rendering is simplified (no claim exercises it). -/
def pyStr : JsonVal → String
  | .null => "None"
  | .str s => s
  | .int n => toString n
  | .bool b => if b then "True" else "False"
  | .arr _ => "<list>"
  | .obj _ => "<dict>"

/-- A network request issued through `RequestProviderBase._make_request`. -/
structure NetRequest where
  method : String
  path : String
  params : List (String × JsonVal)
  body : Option JsonVal
deriving Repr

/-- The uniform provider response envelope (`APIResponse` in
`services/response.py`).  Modelled from the spec: `services/response.py`
is not part of the provided sources; §3 of the spec gives the fields —
`success`, `data` (payload), `message` (optional), `error` (structured
detail, optional), `status_code` (optional integer).  Omitted constructor
arguments are embedded by their absent/empty defaults. -/
structure APIResponse where
  success : Bool
  data : JsonVal := .null
  message : Option String := none
  error : Option JsonVal := none
  status_code : Option Int := none
deriving Repr

/-- The transport, abstracted: `_make_request` is not part of the provided
sources.  Modelled from the spec: each call issues one network request and
yields one `APIResult`-shaped response; the provider code under proof only
forwards or inspects that response.  A provider operation is therefore a
function of this oracle that also returns the list of requests it issued,
in order. -/
def Net : Type := NetRequest → APIResponse

/-- `JellyseerrProvider.get_quality_profiles` (jellyseerr.py:54-65): a
constant success envelope with empty data and an explanatory message; no
request is issued. -/
def get_quality_profiles : List NetRequest × APIResponse :=
  ([], { success := true, data := .arr [],
         message := some "Jellyseerr manages quality profiles internally via its Sonarr/Radarr configurations." })

/-- `JellyseerrProvider.lookup_media` (jellyseerr.py:67-99).  The keyword
bag is embedded as the three values the code reads (`title`, `tmdb_id`,
`media_type`), each `none` when absent.  A truthy title wins; otherwise a
truthy id/type pair is validated against `movie`/`tv`; otherwise (or on an
invalid type) a 400 failure envelope is returned with no request issued. -/
def lookup_media (net : Net) (title tmdb_id media_type : Option JsonVal) :
    List NetRequest × APIResponse :=
  if truthyOpt title then
    let req : NetRequest :=
      ⟨"GET", "search", [("query", title.getD .null)], none⟩
    ([req], net req)
  else if truthyOpt tmdb_id ∧ truthyOpt media_type then
    if jsonEqStr (media_type.getD .null) "movie" ∨ jsonEqStr (media_type.getD .null) "tv" then
      let req : NetRequest :=
        ⟨"GET", "search/" ++ pyStr (media_type.getD .null) ++ "/" ++
           pyStr (tmdb_id.getD .null), [], none⟩
      ([req], net req)
    else
      ([], { success := false,
             message := some "Invalid media_type for tmdb_id lookup. Must be 'movie' or 'tv'.",
             status_code := some 400 })
  else
    ([], { success := false,
           message := some "Either 'title' or both 'tmdb_id' and 'media_type' must be provided for lookup.",
           status_code := some 400 })

/-- The implicit-lookup phase of `add_media` (jellyseerr.py:146-155): when
the title lookup succeeded, read `lookup.data.get("results", [])` (an
`AttributeError` — `.error ()` — when `data` is not a dictionary), and when
that list is truthy take its first element's `id` (indexing or `.get` on a
non-list/non-dictionary raises).  Yields the `media_id` that goes into the
payload, `none` embedding Python `None`. -/
def addMediaLookupId (resp : APIResponse) : Except Unit (Option JsonVal) :=
  if resp.success then
    match resp.data with
    | .obj d =>
      let results := (dget d "results").getD (.arr [])
      if truthyJson results then
        match results with
        | .arr (x :: _) =>
          (match x with
           | .obj xd => .ok (dget xd "id")
           | _ => .error ())
        | _ => .error ()
      else .ok none
    | _ => .error ()
  else .ok none

/-- The failure-logging line of `add_media` (jellyseerr.py:179) evaluates
`api_response.error.get('details')` whenever the response failed and
`error` is truthy; on a truthy non-dictionary `error` that raises
`AttributeError`. -/
def addMediaLogFailure (resp : APIResponse) : Except Unit Unit :=
  if resp.success then .ok ()
  else
    match resp.error with
    | some v =>
        if truthyJson v then
          (match v with
           | .obj _ => .ok ()
           | _ => .error ())
        else .ok ()
    | none => .ok ()

/-- The request payload assembled by `add_media` (jellyseerr.py:157-171):
`mediaType`, `mediaId` (null when no lookup match) and `is4k` always;
`userId`, `serverId` (skipped only for an explicit null
`target_server_id`), `profileId` and `rootFolder` conditionally, in that
order. -/
def addMediaPayload (media_type : JsonVal) (media_id : Option JsonVal)
    (is_4k target_server_id : JsonVal) (user_id : Option JsonVal)
    (quality_profile_id : Option Int) (root_folder_path : Option String) :
    List (String × JsonVal) :=
  let payload₀ : List (String × JsonVal) :=
    [("mediaType", media_type),
     ("mediaId", media_id.getD .null),
     ("is4k", is_4k)]
  let payload₁ := match user_id with
    | some u => payload₀ ++ [("userId", u)]
    | none => payload₀
  let payload₂ := match target_server_id with
    | .null => payload₁
    | v => payload₁ ++ [("serverId", v)]
  let payload₃ := match quality_profile_id with
    | some p => payload₂ ++ [("profileId", .int p)]
    | none => payload₂
  match root_folder_path with
    | some r => payload₃ ++ [("rootFolder", .str r)]
    | none => payload₃

/-- `JellyseerrProvider.add_media` (jellyseerr.py:101-183).  `item_info`
and `add_options` are embedded dictionaries; `_monitor` is accepted and —
as in the source — never read.  Validation (missing/falsy `mediaType` or
`title`, or a `mediaType` outside `movie`/`tv`) returns a 400 envelope
before any request; otherwise an implicit title lookup runs first and the
`POST request` call is issued with the payload assembled from the first
lookup match (a missing match leaving `mediaId` null). -/
def add_media (net : Net) (item_info : List (String × JsonVal))
    (quality_profile_id : Option Int) (root_folder_path : Option String)
    (_monitor : Bool) (add_options : Option (List (String × JsonVal))) :
    Except Unit (List NetRequest × APIResponse) := do
  let add_opts := add_options.getD []
  let media_type := dget item_info "mediaType"
  let title := dget item_info "title"
  let is_4k := (dget add_opts "is_4k").getD (.bool false)
  let target_server_id := (dget add_opts "target_server_id").getD (.int 0)
  let user_id := dget add_opts "user_id"
  if !(truthyOpt media_type) ∨ !(truthyOpt title) then
    return ([], { success := false,
                  message := some "item_info must contain 'mediaType' and 'title'",
                  status_code := some 400 })
  if !(jsonEqStr (media_type.getD .null) "movie") ∧
      !(jsonEqStr (media_type.getD .null) "tv") then
    return ([], { success := false,
                  message := some "Invalid media_type. Must be 'movie' or 'tv'.",
                  status_code := some 400,
                  error := some (.obj [("details",
                    .str "Invalid media_type. Must be 'movie' or 'tv'.")]) })
  let lookup := lookup_media net title none none
  let media_id ← addMediaLookupId lookup.2
  let payload := addMediaPayload (media_type.getD .null) media_id is_4k
    target_server_id user_id quality_profile_id root_folder_path
  let req : NetRequest := ⟨"POST", "request", [], some (.obj payload)⟩
  let api_response := net req
  let _ ← addMediaLogFailure api_response
  return (lookup.1 ++ [req], api_response)

/-- `JellyseerrProvider.get_users` (jellyseerr.py:22-50): fetch `GET user`;
on success with dictionary data, replace `data` by the `results` list,
filtered by `displayName` when one is given (the comprehension iterates the
list and calls `.get` on its elements, raising on a non-list or non-dict
element); on success with non-dictionary data return a fresh failure
envelope carrying the old data and status code; on failure pass the
response through. -/
def get_users (net : Net) (displayName : Option String) :
    Except Unit (List NetRequest × APIResponse) := do
  let req : NetRequest := ⟨"GET", "user", [("skip", .int 0), ("take", .int 100)], none⟩
  let response := net req
  if response.success then
    match response.data with
    | .obj d =>
      let all_users := (dget d "results").getD (.arr [])
      if truthyStr displayName then
        match all_users with
        | .arr l =>
          let filtered ← l.mapM (fun u =>
            match u with
            | .obj ud => Except.ok ((dget ud "displayName").getD .null)
            | _ => Except.error ())
          let kept := (l.zip filtered).filterMap (fun p =>
            if jsonEqStr p.2 (displayName.getD "") then some p.1 else none)
          return ([req], { response with data := .arr kept })
        | _ => Except.error ()
      else
        return ([req], { response with data := all_users })
    | _ =>
      return ([req], { success := false,
                       message := some "Unexpected data format from Jellyseerr /user endpoint.",
                       status_code := response.status_code,
                       data := response.data })
  else
    return ([req], response)

/-! ## Adapter queries and the null-on-error contract -/

/-- Outcome of one `requests.get` + `raise_for_status` + `.json()`
interaction, abstracting the HTTP transport: a parsed JSON body, a
`requests.exceptions.RequestException` (including non-2xx statuses raised
by `raise_for_status`), a `json.JSONDecodeError`, or any other unexpected
exception. -/
inductive HttpOutcome where
  | ok (body : JsonVal)
  | requestError
  | jsonError
  | otherError
deriving Repr

/-- `Jellyfin.get_recently_watched` (jellyfin.py:88-130): falsy URL, API
key or user id return `None` before any request; afterwards the body is
indexed as `response.json()["Items"]`, every raised exception (transport,
JSON decode, `KeyError`/`TypeError` on the body shape) being caught and
converted to `None`. -/
def jellyfin_get_recently_watched (url apiKey userId : String) (http : HttpOutcome) :
    Option JsonVal :=
  if url = "" ∨ apiKey = "" ∨ userId = "" then none
  else
    match http with
    | .ok body =>
      (match body with
       | .obj d => dget d "Items"
       | _ => none)
    | _ => none

/-- `Jellyfin.get_favorites` (jellyfin.py:132-176): same configuration
check and same `response.json()["Items"]` handling as
`get_recently_watched`, only the query parameters differ. -/
def jellyfin_get_favorites (url apiKey userId : String) (http : HttpOutcome) :
    Option JsonVal :=
  if url = "" ∨ apiKey = "" ∨ userId = "" then none
  else
    match http with
    | .ok body =>
      (match body with
       | .obj d => dget d "Items"
       | _ => none)
    | _ => none

/-- `Jellyfin.get_all_items` (jellyfin.py:267-298): only URL and API key
are required, and the body is read as `response.json().get("Items", [])`,
so a dictionary body without the key yields the empty list rather than an
error. -/
def jellyfin_get_all_items (url apiKey : String) (http : HttpOutcome) :
    Option JsonVal :=
  if url = "" ∨ apiKey = "" then none
  else
    match http with
    | .ok body =>
      (match body with
       | .obj d => some ((dget d "Items").getD (.arr []))
       | _ => none)
    | _ => none

/-- Outcome of `self.server.history(...)` in the Plex adapter: the item
list, a `plexapi` `NotFound`, or any other exception. -/
inductive PlexHistoryOutcome where
  | ok (items : List PlexItem)
  | notFound
  | err
deriving Repr

/-- Is this item a `MovieHistory` or `EpisodeHistory` instance?  The
`isinstance` filter of plex.py:140. -/
def isWatchedVideo : PlexItem → Bool
  | .episodeHistory _ _ _ => true
  | .movieHistory _ _ _ => true
  | _ => false

/-- Digit-sequence accumulator for `pyIntParse`. -/
def parseDigits : List Char → Nat → Option Nat
  | [], acc => some acc
  | c :: cs, acc =>
      if c.isDigit then parseDigits cs (acc * 10 + (c.toNat - 48)) else none

/-- Python `int(s)` on a stripped string: an optional sign followed by at
least one digit; anything else raises `ValueError` (`none`). -/
def pyIntParse (s : String) : Option Int :=
  match s.data with
  | [] => none
  | '-' :: cs => (if cs.isEmpty then none else parseDigits cs 0).map
      (fun n => -(n : Int))
  | '+' :: cs => (if cs.isEmpty then none else parseDigits cs 0).map
      (fun n => (n : Int))
  | cs => (parseDigits cs 0).map (fun n => (n : Int))

/-- `Plex.get_recently_watched` (plex.py:105-149), default
(non-JSON-output) path: `None` when the server is not connected, the user
id is falsy or fails integer parsing, or the history call raises; the
`NotFound` exception is mapped to the empty list; otherwise the history is
filtered to movie/episode history entries. -/
def plex_get_recently_watched (connected : Bool) (userId : String)
    (hist : PlexHistoryOutcome) : Option (List PlexItem) :=
  if !connected then none
  else if userId = "" then none
  else
    match pyIntParse userId with
    | none => none
    | some _ =>
      match hist with
      | .ok items => some (items.filter isWatchedVideo)
      | .notFound => some []
      | .err => none

/-- The Plex library, abstracted: the sections (each with its `type` string
and its `all()` item list), or an exception raised while iterating it. -/
inductive PlexLibraryOutcome where
  | ok (sections : List (String × List PlexItem))
  | err
deriving Repr

/-- Is this library item an eligible favorite (plex.py:185-187): it has a
non-`None` `userRating` of at least `9.0` and is a `Movie` or `Show`? -/
def isFavoriteItem : PlexItem → Bool
  | .movie _ _ _ (some r) _ => 9 ≤ r
  | .show _ _ _ (some r) _ => 9 ≤ r
  | _ => false

/-- `Plex.get_favorites` (plex.py:151-197), default path: `None` when not
connected or on an exception; otherwise the movie/show sections are
scanned in order and highly rated movies/shows collected until the limit,
the double `break` plus the final slice amounting to taking the first
`limit` eligible items. -/
def plex_get_favorites (connected : Bool) (limit : Int) (lib : PlexLibraryOutcome) :
    Option (List PlexItem) :=
  if !connected then none
  else
    match lib with
    | .ok sections =>
      let eligible := (sections.filter
          (fun s => s.1 = "movie" ∨ s.1 = "show")).flatMap
        (fun s => s.2.filter isFavoriteItem)
      some (eligible.take limit.toNat)
    | .err => none

/-- `Plex.get_all_items` (plex.py:297-329), default path: `None` when not
connected or on an exception; otherwise the concatenation of the items of
every `movie` or `show` section. -/
def plex_get_all_items (connected : Bool) (lib : PlexLibraryOutcome) :
    Option (List PlexItem) :=
  if !connected then none
  else
    match lib with
    | .ok sections =>
      some ((sections.filter (fun s => s.1 = "movie" ∨ s.1 = "show")).flatMap
        (fun s => s.2))
    | .err => none

/-! ## Specification-level helpers for the merge semantics -/

/-- Greatest of two optional ISO-8601 strings, `none` being neutral. -/
def omax (a b : Option String) : Option String :=
  match a, b with
  | none, b => b
  | some x, none => some x
  | some x, some y => some (max x y)

/-- The greatest element of a list of ISO-8601 strings (`none` when the
list is empty): the temporally greatest under same-timezone string
ordering. -/
def maxDate (l : List String) : Option String :=
  l.foldl (fun a d => omax a (some d)) none

/-- First non-absent value of a pair (first-write-wins combine). -/
def ofirst {α : Type} (a b : Option α) : Option α :=
  match a with
  | some x => some x
  | none => b

/-- First non-absent value of a list of optional values. -/
def firstSome {α : Type} (l : List (Option α)) : Option α :=
  l.foldl ofirst none

/-- The names of the consolidated items, in insertion order. -/
def namesOf (m : List ItemsFiltered) : List String :=
  m.map (fun e => e.name)

/-- The classified Plex events resolving to name `n`, in input order. -/
def plexEventsFor (st : String) (n : String) (items : List PlexItem) : List PResolved :=
  items.filterMap (fun it =>
    match plexClassify st it with
    | some r => if r.name = n then some r else none
    | none => none)

/-- The non-absent dates among the Plex events resolving to `n`. -/
def plexPresentDatesFor (st : String) (n : String) (items : List PlexItem) : List String :=
  (plexEventsFor st n items).filterMap (fun r => r.last_played_date)

/-- The entry created on first sighting of a Plex event (plex.py:283-290). -/
def mkPlexEntry (r : PResolved) : ItemsFiltered :=
  ⟨r.name, some r.id, r.type, r.last_played_date, r.play_count, r.is_favorite⟩

/-- Per-name reduction of the Plex consolidation: the first event for a
name creates the entry and the remaining ones merge into it. -/
def plexConsolidateOne (st : String) (rs : List PResolved) : Option ItemsFiltered :=
  match rs with
  | [] => none
  | r :: rest => some (rest.foldl (fun e r' => plexMerge st e r') (mkPlexEntry r))

/-- The classified Jellyfin events resolving to (truthy) name `n`. -/
def jfEventsFor (n : String) (items : List JItem) : List JResolved :=
  items.filterMap (fun it =>
    match jfClassify it with
    | some r => if r.name = some n then some r else none
    | none => none)

/-- The non-absent dates among the Jellyfin events resolving to `n`. -/
def jfPresentDatesFor (n : String) (items : List JItem) : List String :=
  (jfEventsFor n items).filterMap (fun r => r.last_played_date)

/-- The entry created on first sighting of a Jellyfin event
(jellyfin.py:249-256). -/
def mkJfEntry (r : JResolved) : ItemsFiltered :=
  ⟨r.name.getD "", r.id, r.type, r.last_played_date,
   some r.play_count, some r.is_favorite⟩

/-- Per-name reduction of the Jellyfin consolidation (fallible: the merge
can raise). -/
def jfConsolidateOne (rs : List JResolved) : Option (Except Unit ItemsFiltered) :=
  match rs with
  | [] => none
  | r :: rest =>
      some (rest.foldlM (fun e r' => jfMerge e r'.last_played_date) (mkJfEntry r))

/-- The action of one Plex merge on the date field alone: replace only for
a truthy new date under the `history` source, and only when the existing
date is falsy or strictly smaller. -/
def plexDateStep (st : String) (a b : Option String) : Option String :=
  if truthyStr b ∧ st = "history" then
    if !(truthyStr a) ∨ ((a.getD "").data < (b.getD "").data) then b else a
  else a

/-- Greatest of a list of optional dates (`none`s ignored). -/
def oMaxList (l : List (Option String)) : Option String :=
  l.foldl omax none

/-- The play count a raw Jellyfin event actually carries (absent without a
`UserData.PlayCount`). -/
def jfRawPlayCount (it : JItem) : Option Int :=
  it.userData.bind (fun ud => ud.playCount)

/-- The favorite flag a raw Jellyfin event actually carries. -/
def jfRawIsFavorite (it : JItem) : Option Bool :=
  it.userData.bind (fun ud => ud.isFavorite)

/-- The envelope invariant of §3: a successful result carries no `error`,
a failed result carries a non-empty `message`. -/
def envelopeInv (r : APIResponse) : Prop :=
  (r.success = true → r.error = none) ∧
  (r.success = false → ∃ s, r.message = some s ∧ s ≠ "")

/-! ### Concrete fixtures for counterexamples and witnesses -/

/-- A raw Jellyfin movie event for `A` carrying no user data at all. -/
def jItemNoDate : JItem := ⟨"Movie", some "A", some "id1", none, none, none⟩

/-- A raw Jellyfin movie event for `A` played on 2024-01-02 with play
count 5, marked favorite. -/
def jItemJan : JItem :=
  ⟨"Movie", some "A", some "id1", none, none,
   some ⟨some "2024-01-02T00:00:00Z", some 5, some true⟩⟩

/-- A raw Jellyfin movie event for `A` played on 2024-03-02 with play
count 9, not favorite. -/
def jItemMar : JItem :=
  ⟨"Movie", some "A", some "id1", none, none,
   some ⟨some "2024-03-02T00:00:00Z", some 9, some false⟩⟩

/-- A Plex library show `X` with view count 3 and no rating. -/
def pShow3 : PlexItem := .show "X" 9 (some 3) none none

/-- A Plex library show `X` with view count 5 and no rating. -/
def pShow5 : PlexItem := .show "X" 9 (some 5) none none

/-- A raw Jellyfin movie event for `A` with play count 5 and favorite set
but no last-played date. -/
def jItemPc5NoDate : JItem :=
  ⟨"Movie", some "A", some "id1", none, none, some ⟨none, some 5, some true⟩⟩

/-- A Plex episode-history event of the series `Beta` viewed in January. -/
def pEpBeta1 : PlexItem := .episodeHistory "Beta" 77 (some "2024-01-02T00:00:00Z")

/-- A Plex episode-history event of the series `Beta` viewed in May. -/
def pEpBeta2 : PlexItem := .episodeHistory "Beta" 77 (some "2024-05-02T00:00:00Z")

/-- The search request `lookup_media` issues for a truthy title. -/
def searchRequest (title : JsonVal) : NetRequest :=
  ⟨"GET", "search", [("query", title)], none⟩

/-- The `POST request` call `add_media` issues after validation. -/
def addMediaRequest (item_info add_opts : List (String × JsonVal))
    (mid : Option JsonVal) (qpi : Option Int) (rfp : Option String) : NetRequest :=
  ⟨"POST", "request", [],
   some (.obj (addMediaPayload ((dget item_info "mediaType").getD .null) mid
     ((dget add_opts "is_4k").getD (.bool false))
     ((dget add_opts "target_server_id").getD (.int 0))
     (dget add_opts "user_id") qpi rfp))⟩

/-- A constant network oracle always answering with a bare success. -/
def okNet : Net := fun _ => { success := true }

/-- A network oracle whose every response carries one search match with
id 42. -/
def idNet : Net := fun _ =>
  { success := true, data := .obj [("results", .arr [.obj [("id", .int 42)]])] }

/-! # Theorems

First, generic lemmas about the insertion-ordered name-keyed map. -/

theorem namesOf_nil : namesOf [] = [] := rfl

theorem strData_lt_iff (a b : String) : a.data < b.data ↔ a < b := by
  rw [String.lt_iff_toList_lt]
  rfl

theorem namesOf_append (m : List ItemsFiltered) (x : ItemsFiltered) :
    namesOf (m ++ [x]) = namesOf m ++ [x.name] := by
  simp [namesOf]

theorem namesOf_mapUpdate (m : List ItemsFiltered) (n : String)
    (f : ItemsFiltered → ItemsFiltered) (hf : ∀ e, e.name = n → (f e).name = n) :
    namesOf (mapUpdate m n f) = namesOf m := by
  induction m with
  | nil => rfl
  | cons e rest ih =>
    simp only [mapUpdate, namesOf, List.map_cons] at *
    by_cases he : e.name = n
    · simp [he, hf e he, ih]
    · simp [he, ih]

theorem mem_namesOf (m : List ItemsFiltered) (n : String) :
    n ∈ namesOf m ↔ ∃ e ∈ m, e.name = n := by
  simp [namesOf]

theorem mapFind_eq_none_iff (m : List ItemsFiltered) (n : String) :
    mapFind m n = none ↔ ∀ e ∈ m, e.name ≠ n := by
  simp [mapFind, List.find?_eq_none]

theorem mapFind_isSome_iff (m : List ItemsFiltered) (n : String) :
    (mapFind m n).isSome ↔ n ∈ namesOf m := by
  simp [mapFind, List.find?_isSome, mem_namesOf]

theorem mapFind_mem (m : List ItemsFiltered) (n : String) (e : ItemsFiltered)
    (h : mapFind m n = some e) : e ∈ m ∧ e.name = n := by
  refine ⟨List.mem_of_find?_eq_some h, ?_⟩
  have := List.find?_some h
  simpa using this

theorem mapFind_update_self (m : List ItemsFiltered) (n : String)
    (f : ItemsFiltered → ItemsFiltered) (hf : ∀ e, e.name = n → (f e).name = n) :
    mapFind (mapUpdate m n f) n = (mapFind m n).map f := by
  induction m with
  | nil => rfl
  | cons e rest ih =>
    simp only [mapUpdate, List.map_cons]
    by_cases he : e.name = n
    · rw [show (if e.name = n then f e else e) = f e by simp [he]]
      unfold mapFind
      rw [List.find?_cons_of_pos _ (by simp [hf e he]),
          List.find?_cons_of_pos _ (by simp [he])]
      rfl
    · rw [show (if e.name = n then f e else e) = e by simp [he]]
      unfold mapFind
      rw [List.find?_cons_of_neg _ (by simp [he]),
          List.find?_cons_of_neg _ (by simp [he])]
      exact ih

theorem mapFind_update_other (m : List ItemsFiltered) (n k : String)
    (f : ItemsFiltered → ItemsFiltered) (hf : ∀ e, e.name = n → (f e).name = n)
    (hk : k ≠ n) :
    mapFind (mapUpdate m n f) k = mapFind m k := by
  induction m with
  | nil => rfl
  | cons e rest ih =>
    simp only [mapUpdate, List.map_cons]
    by_cases he : e.name = n
    · have hfe : (f e).name = n := hf e he
      rw [show (if e.name = n then f e else e) = f e by simp [he]]
      unfold mapFind
      rw [List.find?_cons_of_neg _ (by simp [hfe]; exact fun h => hk h.symm),
          List.find?_cons_of_neg _ (by simp [he]; exact fun h => hk h.symm)]
      exact ih
    · rw [show (if e.name = n then f e else e) = e by simp [he]]
      by_cases hek : e.name = k
      · unfold mapFind
        rw [List.find?_cons_of_pos _ (by simp [hek]),
            List.find?_cons_of_pos _ (by simp [hek])]
      · unfold mapFind
        rw [List.find?_cons_of_neg _ (by simp [hek]),
            List.find?_cons_of_neg _ (by simp [hek])]
        exact ih

theorem mapFind_append (m : List ItemsFiltered) (x : ItemsFiltered) (k : String) :
    mapFind (m ++ [x]) k =
      (mapFind m k).or (if x.name = k then some x else none) := by
  by_cases hx : x.name = k
  · simp [mapFind, List.find?_append, hx]
  · simp [mapFind, List.find?_append, hx]

theorem mapFind_of_mem_nodup (m : List ItemsFiltered) (e : ItemsFiltered)
    (hnd : (namesOf m).Nodup) (he : e ∈ m) : mapFind m e.name = some e := by
  induction m with
  | nil => cases he
  | cons x rest ih =>
    simp only [namesOf, List.map_cons, List.nodup_cons] at hnd
    rcases List.mem_cons.mp he with rfl | hmem
    · simp [mapFind, List.find?_cons]
    · have hne : x.name ≠ e.name := by
        intro hcontra
        exact hnd.1 (by simpa [namesOf, hcontra] using List.mem_map_of_mem (fun y => y.name) hmem)
      simp [mapFind, List.find?_cons, Ne.symm hne, hne]
      simpa [mapFind] using ih (by simpa [namesOf] using hnd.2) hmem

/-! ### Plex merge: field-by-field behaviour -/

theorem plexMerge_name (st : String) (e : ItemsFiltered) (r : PResolved) :
    (plexMerge st e r).name = e.name := by
  unfold plexMerge
  simp only [apply_ite ItemsFiltered.name]
  split_ifs <;> rfl

theorem plexMerge_id (st : String) (e : ItemsFiltered) (r : PResolved) :
    (plexMerge st e r).id = e.id := by
  unfold plexMerge
  simp only [apply_ite ItemsFiltered.id]
  split_ifs <;> rfl

theorem plexMerge_type (st : String) (e : ItemsFiltered) (r : PResolved) :
    (plexMerge st e r).type = e.type := by
  unfold plexMerge
  simp only [apply_ite ItemsFiltered.type]
  split_ifs <;> rfl

theorem plexMerge_date (st : String) (e : ItemsFiltered) (r : PResolved) :
    (plexMerge st e r).last_played_date =
      plexDateStep st e.last_played_date r.last_played_date := by
  unfold plexMerge plexDateStep
  simp only [apply_ite ItemsFiltered.last_played_date]
  split_ifs <;> rfl

theorem plexMerge_play_count (st : String) (e : ItemsFiltered) (r : PResolved) :
    (plexMerge st e r).play_count = ofirst e.play_count r.play_count := by
  unfold plexMerge
  simp only [apply_ite ItemsFiltered.play_count]
  rcases he : e.play_count with _ | pc <;> rcases hr : r.play_count with _ | pc' <;>
    split_ifs <;> simp_all [ofirst]

theorem plexMerge_is_favorite (st : String) (e : ItemsFiltered) (r : PResolved) :
    (plexMerge st e r).is_favorite = ofirst e.is_favorite r.is_favorite := by
  unfold plexMerge
  simp only [apply_ite ItemsFiltered.is_favorite]
  rcases he : e.is_favorite with _ | fv <;> rcases hr : r.is_favorite with _ | fv' <;>
    split_ifs <;> simp_all [ofirst]

/-! ### Plex consolidation: structural invariants -/

theorem namesOf_mem (m : List ItemsFiltered) (e : ItemsFiltered) (h : e ∈ m) :
    e.name ∈ namesOf m :=
  List.mem_map_of_mem (fun x => x.name) h

theorem notMem_namesOf_of_find_none (m : List ItemsFiltered) (n : String)
    (h : mapFind m n = none) : n ∉ namesOf m := by
  rw [mem_namesOf]
  rintro ⟨e, he, rfl⟩
  exact (mapFind_eq_none_iff m e.name).mp h e he rfl

theorem plexStep_nodup (st : String) (m : List ItemsFiltered) (it : PlexItem)
    (h : (namesOf m).Nodup) : (namesOf (plexStep st m it)).Nodup := by
  unfold plexStep
  rcases hc : plexClassify st it with _ | r
  · exact h
  · by_cases hn : r.name = ""
    · simp [hn, h]
    · simp only [hn, if_neg, if_false]
      rcases hf : mapFind m r.name with _ | ex
      · simp only [namesOf_append, List.nodup_append]
        exact ⟨h, List.nodup_singleton _,
          by simpa using fun hmem => notMem_namesOf_of_find_none m r.name hf hmem⟩
      · have hex := mapFind_mem m r.name ex hf
        rw [namesOf_mapUpdate m r.name _
          (fun e _ => by rw [plexMerge_name]; exact hex.2)]
        exact h

theorem plexStep_name_ne (st : String) (m : List ItemsFiltered) (it : PlexItem)
    (h : ∀ e ∈ m, e.name ≠ "") : ∀ e ∈ plexStep st m it, e.name ≠ "" := by
  unfold plexStep
  rcases hc : plexClassify st it with _ | r
  · exact h
  · by_cases hn : r.name = ""
    · simpa [hn] using h
    · simp only [hn, if_neg, if_false]
      rcases hf : mapFind m r.name with _ | ex
      · intro e he
        rcases List.mem_append.mp he with hm | hx
        · exact h e hm
        · rcases List.mem_singleton.mp hx with rfl
          exact hn
      · intro e he
        have hex := mapFind_mem m r.name ex hf
        have : e.name ∈ namesOf (mapUpdate m r.name (fun _ => plexMerge st ex r)) :=
          namesOf_mem _ e he
        rw [namesOf_mapUpdate m r.name _
          (fun e' _ => by rw [plexMerge_name]; exact hex.2)] at this
        rcases (mem_namesOf m e.name).mp this with ⟨e', he', hname⟩
        rw [← hname]
        exact h e' he'

theorem plexConsolidate_nodup (st : String) (items : List PlexItem) :
    (namesOf (plexConsolidate st items)).Nodup := by
  suffices h : ∀ m, (namesOf m).Nodup → (namesOf (items.foldl (plexStep st) m)).Nodup by
    exact h [] (by simp [namesOf])
  induction items with
  | nil => intro m hm; exact hm
  | cons it rest ih =>
    intro m hm
    exact ih (plexStep st m it) (plexStep_nodup st m it hm)

theorem plexConsolidate_name_ne (st : String) (items : List PlexItem) :
    ∀ e ∈ plexConsolidate st items, e.name ≠ "" := by
  suffices h : ∀ m, (∀ e ∈ m, e.name ≠ "") →
      ∀ e ∈ items.foldl (plexStep st) m, e.name ≠ "" by
    exact h [] (by simp)
  induction items with
  | nil => intro m hm; exact hm
  | cons it rest ih =>
    intro m hm
    exact ih (plexStep st m it) (plexStep_name_ne st m it hm)

theorem plexFind_consolidate (st : String) (items : List PlexItem) (n : String)
    (hn : n ≠ "") :
    mapFind (plexConsolidate st items) n =
      plexConsolidateOne st (plexEventsFor st n items) := by
  induction items using List.reverseRecOn with
  | nil => rfl
  | append_singleton l it ih =>
    have hstep : plexConsolidate st (l ++ [it]) =
        plexStep st (plexConsolidate st l) it := by
      simp [plexConsolidate, List.foldl_append]
    rw [hstep]
    unfold plexStep
    rcases hc : plexClassify st it with _ | r
    · have hevs : plexEventsFor st n (l ++ [it]) = plexEventsFor st n l := by
        simp [plexEventsFor, List.filterMap_append, hc]
      rw [hevs]
      exact ih
    · by_cases hrn : r.name = ""
      · have hne : r.name ≠ n := fun h => hn (by rw [hrn] at h; exact h.symm)
        have hevs : plexEventsFor st n (l ++ [it]) = plexEventsFor st n l := by
          simp [plexEventsFor, List.filterMap_append, hc, hne]
        rw [hevs]
        simp only [hrn, if_true]
        exact ih
      · simp only [hrn, if_false]
        by_cases heq : r.name = n
        · have hevs : plexEventsFor st n (l ++ [it]) =
              plexEventsFor st n l ++ [r] := by
            simp [plexEventsFor, List.filterMap_append, hc, heq]
          rw [hevs]
          rcases hf : mapFind (plexConsolidate st l) r.name with _ | ex <;>
            simp only [hf]
          · rw [heq] at hf
            rw [mapFind_append, hf]
            have hevs0 : plexEventsFor st n l = [] := by
              rcases hev : plexEventsFor st n l with _ | ⟨r₀, rest⟩
              · rfl
              · rw [ih, hev] at hf
                simp [plexConsolidateOne] at hf
            rw [hevs0]
            simp [plexConsolidateOne, mkPlexEntry, heq]
          · rw [heq] at hf
            have hex := mapFind_mem _ n ex hf
            rw [heq]
            rw [mapFind_update_self _ n _
              (fun e _ => by rw [plexMerge_name]; exact hex.2), hf]
            rw [ih] at hf
            rcases hev : plexEventsFor st n l with _ | ⟨r₀, rest⟩
            · rw [hev] at hf
              simp [plexConsolidateOne] at hf
            · rw [hev] at hf
              simp only [plexConsolidateOne] at hf ⊢
              have hfoldl := Option.some.inj hf
              simp [List.foldl_append, hfoldl]
        · have hevs : plexEventsFor st n (l ++ [it]) = plexEventsFor st n l := by
            simp [plexEventsFor, List.filterMap_append, hc, heq]
          rw [hevs]
          rcases hf : mapFind (plexConsolidate st l) r.name with _ | ex <;>
            simp only [hf]
          · rw [mapFind_append]
            have hname : (⟨r.name, some r.id, r.type, r.last_played_date,
                r.play_count, r.is_favorite⟩ : ItemsFiltered).name = r.name := rfl
            simp only [hname, heq, if_false, Option.or_none]
            exact ih
          · have hex := mapFind_mem _ r.name ex hf
            rw [mapFind_update_other _ r.name n _
              (fun e _ => by rw [plexMerge_name]; exact hex.2)
              (fun h => heq h.symm)]
            exact ih

/-! ### Per-name fold: field characterizations -/

theorem plexFold_name (st : String) (rs : List PResolved) (entry : ItemsFiltered) :
    (rs.foldl (fun e r => plexMerge st e r) entry).name = entry.name := by
  induction rs generalizing entry with
  | nil => rfl
  | cons r rest ih => rw [List.foldl_cons, ih, plexMerge_name]

theorem plexFold_id (st : String) (rs : List PResolved) (entry : ItemsFiltered) :
    (rs.foldl (fun e r => plexMerge st e r) entry).id = entry.id := by
  induction rs generalizing entry with
  | nil => rfl
  | cons r rest ih => rw [List.foldl_cons, ih, plexMerge_id]

theorem plexFold_type (st : String) (rs : List PResolved) (entry : ItemsFiltered) :
    (rs.foldl (fun e r => plexMerge st e r) entry).type = entry.type := by
  induction rs generalizing entry with
  | nil => rfl
  | cons r rest ih => rw [List.foldl_cons, ih, plexMerge_type]

theorem plexFold_play_count (st : String) (rs : List PResolved) (entry : ItemsFiltered) :
    (rs.foldl (fun e r => plexMerge st e r) entry).play_count =
      rs.foldl (fun a r => ofirst a r.play_count) entry.play_count := by
  induction rs generalizing entry with
  | nil => rfl
  | cons r rest ih =>
    rw [List.foldl_cons, ih, plexMerge_play_count, List.foldl_cons]

theorem plexFold_is_favorite (st : String) (rs : List PResolved) (entry : ItemsFiltered) :
    (rs.foldl (fun e r => plexMerge st e r) entry).is_favorite =
      rs.foldl (fun a r => ofirst a r.is_favorite) entry.is_favorite := by
  induction rs generalizing entry with
  | nil => rfl
  | cons r rest ih =>
    rw [List.foldl_cons, ih, plexMerge_is_favorite, List.foldl_cons]

theorem plexFold_date (st : String) (rs : List PResolved) (entry : ItemsFiltered) :
    (rs.foldl (fun e r => plexMerge st e r) entry).last_played_date =
      rs.foldl (fun a r => plexDateStep st a r.last_played_date)
        entry.last_played_date := by
  induction rs generalizing entry with
  | nil => rfl
  | cons r rest ih =>
    rw [List.foldl_cons, ih, plexMerge_date, List.foldl_cons]

/-! ### First-write-wins and greatest-date algebra -/

theorem ofirst_none {α : Type} (b : Option α) : ofirst none b = b := rfl

theorem firstSome_cons {α : Type} (a : Option α) (l : List (Option α)) :
    firstSome (a :: l) = l.foldl ofirst a := by
  simp [firstSome, List.foldl_cons, ofirst]

theorem omax_none_right (a : Option String) : omax a none = a := by
  cases a <;> rfl

theorem omax_assoc (a b c : Option String) :
    omax (omax a b) c = omax a (omax b c) := by
  rcases a with _ | x <;> rcases b with _ | y <;> rcases c with _ | z <;>
    simp [omax, max_assoc]

theorem omax_right_comm (a b c : Option String) :
    omax (omax a b) c = omax (omax a c) b := by
  rcases a with _ | x <;> rcases b with _ | y <;> rcases c with _ | z <;>
    simp [omax, max_comm, max_left_comm, max_assoc]

theorem foldl_omax_eq (a : Option String) (l : List (Option String)) :
    l.foldl omax a = omax a (oMaxList l) := by
  induction l generalizing a with
  | nil => rw [oMaxList]; exact (omax_none_right a).symm
  | cons b t ih =>
    have hc : oMaxList (b :: t) = omax b (oMaxList t) := by
      show (b :: t).foldl omax none = omax b (oMaxList t)
      rw [List.foldl_cons, show omax none b = b from rfl]
      exact ih b
    rw [List.foldl_cons, ih (omax a b), hc, omax_assoc]

theorem oMaxList_cons (a : Option String) (t : List (Option String)) :
    oMaxList (a :: t) = omax a (oMaxList t) := by
  show (a :: t).foldl omax none = omax a (oMaxList t)
  rw [List.foldl_cons, show omax none a = a from rfl]
  exact foldl_omax_eq a t

theorem oMaxList_eq_maxDate (l : List (Option String)) :
    oMaxList l = maxDate (l.filterMap id) := by
  have hmap : ∀ m : List String, maxDate m = oMaxList (m.map some) := by
    intro m
    simp [maxDate, oMaxList, List.foldl_map]
  induction l with
  | nil => rfl
  | cons a t ih =>
    rcases a with _ | s
    · rw [oMaxList_cons, show omax none (oMaxList t) = oMaxList t from rfl, ih]
      simp
    · rw [oMaxList_cons, ih]
      have hfm : List.filterMap id (some s :: t) = s :: t.filterMap id := by simp
      rw [hfm]
      have hsplit : maxDate (s :: t.filterMap id) =
          omax (some s) (maxDate (t.filterMap id)) := by
        rw [hmap (s :: t.filterMap id), hmap (t.filterMap id), List.map_cons,
          oMaxList_cons]
      rw [hsplit]

theorem maxDate_perm (l₁ l₂ : List String) (h : l₁.Perm l₂) :
    maxDate l₁ = maxDate l₂ := by
  unfold maxDate
  exact h.foldl_eq' (fun x _ y _ z => by
    rcases z with _ | a <;> simp [omax, max_comm, max_left_comm]) none

theorem plexDateStep_eq_omax (a b : Option String)
    (ha : a ≠ some "") (hb : b ≠ some "") :
    plexDateStep "history" a b = omax a b := by
  unfold plexDateStep omax
  rcases a with _ | x <;> rcases b with _ | y
  · rfl
  · have hy : y ≠ "" := fun h => hb (by rw [h])
    simp [truthyStr, hy]
  · simp [truthyStr]
  · have hx : x ≠ "" := fun h => ha (by rw [h])
    have hy : y ≠ "" := fun h => hb (by rw [h])
    by_cases hlt : x.data < y.data
    · have hxy : x < y := (strData_lt_iff x y).mp hlt
      simp [truthyStr, hx, hy, hlt, max_eq_right hxy.le]
    · have hxy : ¬ x < y := fun hc => hlt ((strData_lt_iff x y).mpr hc)
      simp [truthyStr, hx, hy, hlt, max_eq_left (le_of_not_lt hxy)]

theorem omax_ne_empty (a b : Option String)
    (ha : a ≠ some "") (hb : b ≠ some "") : omax a b ≠ some "" := by
  rcases a with _ | x <;> rcases b with _ | y <;> simp_all [omax]
  rcases max_choice x y with h | h <;> rw [h] <;> assumption

/-! ### Jellyfin merge and consolidation lemmas -/

theorem jfMerge_cases (e : ItemsFiltered) (cur : Option String) (m : ItemsFiltered)
    (h : jfMerge e cur = .ok m) :
    m = e ∨ ∃ d, cur = some d ∧ m = { e with last_played_date := some d } := by
  unfold jfMerge at h
  by_cases ht : truthyStr cur
  · rw [if_pos ht] at h
    rcases cur with _ | d
    · simp [truthyStr] at ht
    · rcases he : e.last_played_date with _ | x <;> rw [he] at h
      · simp at h
      · by_cases hlt : x.data < d.data
        · simp [hlt] at h
          exact Or.inr ⟨d, rfl, h.symm⟩
        · simp [hlt] at h
          exact Or.inl h.symm
  · rw [if_neg ht] at h
    simp at h
    exact Or.inl h.symm

theorem jfMerge_name_eq (e : ItemsFiltered) (cur : Option String) (m : ItemsFiltered)
    (h : jfMerge e cur = .ok m) : m.name = e.name := by
  rcases jfMerge_cases e cur m h with rfl | ⟨d, _, rfl⟩ <;> rfl

theorem jfMerge_ok_of_truthy (e : ItemsFiltered) (cur : Option String)
    (he : truthyStr e.last_played_date) (hc : truthyStr cur) :
    jfMerge e cur =
      .ok { e with last_played_date := omax e.last_played_date cur } := by
  rcases hel : e.last_played_date with _ | x
  · rw [hel] at he; simp [truthyStr] at he
  · rcases cur with _ | d
    · simp [truthyStr] at hc
    · unfold jfMerge
      rw [if_pos hc, hel]
      by_cases hlt : x.data < d.data
      · simp [hlt, omax, max_eq_right ((strData_lt_iff x d).mp hlt).le]
      · have hmax : max x d = x :=
          max_eq_left (le_of_not_lt fun hc' => hlt ((strData_lt_iff x d).mpr hc'))
        have hee : ({ e with last_played_date := some x } : ItemsFiltered) = e := by
          rw [← hel]
        simp [hlt, omax, hmax, hee]

theorem truthy_omax (a b : Option String) (ha : truthyStr a) (hb : truthyStr b) :
    truthyStr (omax a b) := by
  rcases a with _ | x
  · simp [truthyStr] at ha
  · rcases b with _ | y
    · simpa [omax] using ha
    · simp [truthyStr] at ha hb ⊢
      rcases max_choice x y with h | h <;> simp [omax, h, ha, hb]

theorem except_bind_ok {α β : Type} (x : Except Unit α) (g : α → Except Unit β) (b : β) :
    (x >>= g) = .ok b ↔ ∃ a, x = .ok a ∧ g a = .ok b := by
  cases x <;> simp [Except.bind, Bind.bind]

theorem jfConsolidate_append (l : List JItem) (it : JItem) (m : List ItemsFiltered) :
    jfConsolidate (l ++ [it]) = .ok m ↔
      ∃ m', jfConsolidate l = .ok m' ∧ jfStep m' it = .ok m := by
  unfold jfConsolidate
  rw [List.foldlM_append]
  constructor
  · intro h
    rcases (except_bind_ok _ _ _).mp h with ⟨m', h₁, h₂⟩
    refine ⟨m', h₁, ?_⟩
    simpa [except_bind_ok] using h₂
  · rintro ⟨m', h₁, h₂⟩
    rw [except_bind_ok]
    exact ⟨m', h₁, by simpa [except_bind_ok] using h₂⟩

theorem truthy_getD_ne (o : Option String) (ht : truthyStr o) : o.getD "" ≠ "" := by
  rcases o with _ | t
  · simp [truthyStr] at ht
  · simpa [truthyStr] using ht

theorem jfStep_nodup (m : List ItemsFiltered) (it : JItem) (m₂ : List ItemsFiltered)
    (h : jfStep m it = .ok m₂) (hm : (namesOf m).Nodup) : (namesOf m₂).Nodup := by
  unfold jfStep at h
  rcases hc : jfClassify it with _ | r <;> rw [hc] at h <;> dsimp only at h
  · cases h; exact hm
  · by_cases ht : truthyStr r.name
    · rw [if_pos ht] at h
      rcases hf : mapFind m (r.name.getD "") with _ | ex <;> rw [hf] at h <;>
        dsimp only at h
      · cases h
        rw [namesOf_append]
        refine hm.append (List.nodup_singleton _) ?_
        intro a ha hamem
        rcases List.mem_singleton.mp hamem with rfl
        exact notMem_namesOf_of_find_none _ _ hf ha
      · rcases hmg : jfMerge ex r.last_played_date with e | merged <;> rw [hmg] at h <;>
          dsimp only at h
        · cases h
        · cases h
          have hex := mapFind_mem m _ ex hf
          rw [namesOf_mapUpdate m _ _
            (fun e _ => by rw [jfMerge_name_eq ex _ merged hmg]; exact hex.2)]
          exact hm
    · rw [if_neg ht] at h
      cases h; exact hm

theorem jfStep_name_ne (m : List ItemsFiltered) (it : JItem) (m₂ : List ItemsFiltered)
    (h : jfStep m it = .ok m₂) (hm : ∀ e ∈ m, e.name ≠ "") :
    ∀ e ∈ m₂, e.name ≠ "" := by
  unfold jfStep at h
  rcases hc : jfClassify it with _ | r <;> rw [hc] at h <;> dsimp only at h
  · cases h; exact hm
  · by_cases ht : truthyStr r.name
    · rw [if_pos ht] at h
      have hne : r.name.getD "" ≠ "" := truthy_getD_ne r.name ht
      rcases hf : mapFind m (r.name.getD "") with _ | ex <;> rw [hf] at h <;>
        dsimp only at h
      · cases h
        intro e he
        rcases List.mem_append.mp he with h₁ | h₂
        · exact hm e h₁
        · rcases List.mem_singleton.mp h₂ with rfl
          exact hne
      · rcases hmg : jfMerge ex r.last_played_date with u | merged <;> rw [hmg] at h <;>
          dsimp only at h
        · cases h
        · cases h
          intro e he
          have hex := mapFind_mem m _ ex hf
          have hmemn : e.name ∈ namesOf (mapUpdate m (r.name.getD "")
              (fun _ => merged)) := namesOf_mem _ e he
          rw [namesOf_mapUpdate m _ _
            (fun e' _ => by rw [jfMerge_name_eq ex _ merged hmg]; exact hex.2)] at hmemn
          rcases (mem_namesOf m e.name).mp hmemn with ⟨e', he', hname⟩
          rw [← hname]
          exact hm e' he'
    · rw [if_neg ht] at h
      cases h; exact hm

theorem jfStep_ok_of_truthy (m : List ItemsFiltered) (it : JItem)
    (hm : ∀ e ∈ m, truthyStr e.last_played_date)
    (hit : ∀ r, jfClassify it = some r → truthyStr r.name →
      truthyStr r.last_played_date) :
    ∃ m₂, jfStep m it = .ok m₂ ∧ ∀ e ∈ m₂, truthyStr e.last_played_date := by
  unfold jfStep
  rcases hc : jfClassify it with _ | r
  · exact ⟨m, rfl, hm⟩
  · by_cases ht : truthyStr r.name
    · simp only [if_pos ht]
      have hdate := hit r hc ht
      rcases hf : mapFind m (r.name.getD "") with _ | ex <;> dsimp only
      · refine ⟨_, rfl, ?_⟩
        intro e he
        rcases List.mem_append.mp he with h₁ | h₂
        · exact hm e h₁
        · rcases List.mem_singleton.mp h₂ with rfl
          exact hdate
      · have hex := mapFind_mem m _ ex hf
        have hext := hm ex hex.1
        rw [jfMerge_ok_of_truthy ex r.last_played_date hext hdate]
        refine ⟨_, rfl, ?_⟩
        intro e he
        rcases List.mem_map.mp (by exact he) with ⟨e₀, he₀, heq₀⟩
        by_cases h₀ : e₀.name = r.name.getD ""
        · rw [if_pos h₀] at heq₀
          rw [← heq₀]
          exact truthy_omax _ _ hext hdate
        · rw [if_neg h₀] at heq₀
          rw [← heq₀]
          exact hm e₀ he₀
    · exact ⟨m, by simp [if_neg ht], hm⟩

theorem jfConsolidate_nodup (items : List JItem) (m : List ItemsFiltered)
    (h : jfConsolidate items = .ok m) : (namesOf m).Nodup := by
  suffices h' : ∀ m₀, (namesOf m₀).Nodup →
      ∀ m, items.foldlM jfStep m₀ = .ok m → (namesOf m).Nodup by
    exact h' [] (by simp [namesOf]) m h
  clear h m
  induction items with
  | nil =>
    intro m₀ h₀ m hm
    simp only [List.foldlM_nil] at hm
    cases hm
    exact h₀
  | cons it rest ih =>
    intro m₀ h₀ m hm
    rw [List.foldlM_cons] at hm
    rcases (except_bind_ok _ _ _).mp hm with ⟨m₁, h₁, h₂⟩
    exact ih m₁ (jfStep_nodup m₀ it m₁ h₁ h₀) m h₂

theorem jfConsolidate_name_ne (items : List JItem) (m : List ItemsFiltered)
    (h : jfConsolidate items = .ok m) : ∀ e ∈ m, e.name ≠ "" := by
  suffices h' : ∀ m₀, (∀ e ∈ m₀, e.name ≠ "") →
      ∀ m, items.foldlM jfStep m₀ = .ok m → ∀ e ∈ m, e.name ≠ "" by
    exact h' [] (by simp) m h
  clear h m
  induction items with
  | nil =>
    intro m₀ h₀ m hm
    simp only [List.foldlM_nil] at hm
    cases hm
    exact h₀
  | cons it rest ih =>
    intro m₀ h₀ m hm
    rw [List.foldlM_cons] at hm
    rcases (except_bind_ok _ _ _).mp hm with ⟨m₁, h₁, h₂⟩
    exact ih m₁ (jfStep_name_ne m₀ it m₁ h₁ h₀) m h₂

theorem jfConsolidate_ok_of_truthy (items : List JItem)
    (hit : ∀ it ∈ items, ∀ r, jfClassify it = some r → truthyStr r.name →
      truthyStr r.last_played_date) :
    ∃ m, jfConsolidate items = .ok m ∧ ∀ e ∈ m, truthyStr e.last_played_date := by
  suffices h' : ∀ m₀, (∀ e ∈ m₀, truthyStr e.last_played_date) →
      ∃ m, items.foldlM jfStep m₀ = .ok m ∧ ∀ e ∈ m, truthyStr e.last_played_date by
    exact h' [] (by simp)
  induction items with
  | nil =>
    intro m₀ h₀
    exact ⟨m₀, by simp only [List.foldlM_nil]; rfl, h₀⟩
  | cons it rest ih =>
    intro m₀ h₀
    rcases jfStep_ok_of_truthy m₀ it h₀ (hit it (by simp)) with ⟨m₁, h₁, h₁t⟩
    rcases ih (fun it' hit' => hit it' (by simp [hit'])) m₁ h₁t with ⟨m, hm, hmt⟩
    refine ⟨m, ?_, hmt⟩
    rw [List.foldlM_cons, except_bind_ok]
    exact ⟨m₁, h₁, hm⟩

theorem jfFind_consolidate (items : List JItem) (n : String) (hn : n ≠ "")
    (m : List ItemsFiltered) (h : jfConsolidate items = .ok m) :
    jfConsolidateOne (jfEventsFor n items) = (mapFind m n).map Except.ok := by
  induction items using List.reverseRecOn generalizing m with
  | nil =>
    have hm : (Except.ok [] : Except Unit (List ItemsFiltered)) = .ok m := h
    cases hm
    rfl
  | append_singleton l it ih =>
    rcases (jfConsolidate_append l it m).mp h with ⟨m', h₁, h₂⟩
    have ihm := ih m' h₁
    unfold jfStep at h₂
    rcases hc : jfClassify it with _ | r <;> rw [hc] at h₂ <;> dsimp only at h₂
    · have hevs : jfEventsFor n (l ++ [it]) = jfEventsFor n l := by
        simp [jfEventsFor, List.filterMap_append, hc]
      cases h₂
      rw [hevs]
      exact ihm
    · by_cases ht : truthyStr r.name
      · rw [if_pos ht] at h₂
        rcases hr : r.name with _ | t
        · rw [hr] at ht; simp [truthyStr] at ht
        · have hk : r.name.getD "" = t := by rw [hr]; rfl
          by_cases heq : t = n
          · subst heq
            have hevs : jfEventsFor t (l ++ [it]) = jfEventsFor t l ++ [r] := by
              simp [jfEventsFor, List.filterMap_append, hc, hr]
            rw [hevs]
            rw [hk] at h₂
            rcases hf : mapFind m' t with _ | ex <;> rw [hf] at h₂ <;>
              dsimp only at h₂
            · cases h₂
              have hevs0 : jfEventsFor t l = [] := by
                rcases hev : jfEventsFor t l with _ | ⟨r₀, rest⟩
                · rfl
                · rw [hev, hf] at ihm
                  simp [jfConsolidateOne] at ihm
              rw [hevs0, mapFind_append, hf]
              simp [jfConsolidateOne, mkJfEntry, hk, Option.none_or, List.foldlM_nil]
              rfl
            · rcases hmg : jfMerge ex r.last_played_date with u | merged <;>
                rw [hmg] at h₂ <;> dsimp only at h₂
              · cases h₂
              · cases h₂
                have hex := mapFind_mem m' t ex hf
                rw [mapFind_update_self m' t _
                  (fun e' _ => by rw [jfMerge_name_eq ex _ merged hmg]; exact hex.2),
                  hf]
                rw [hf] at ihm
                rcases hev : jfEventsFor t l with _ | ⟨r₀, rest⟩
                · rw [hev] at ihm
                  simp [jfConsolidateOne] at ihm
                · rw [hev] at ihm
                  simp only [jfConsolidateOne] at ihm
                  have hfold : List.foldlM (fun e r' => jfMerge e r'.last_played_date)
                      (mkJfEntry r₀) rest = .ok ex := by
                    simpa using ihm
                  simp only [jfConsolidateOne, List.cons_append]
                  rw [List.foldlM_append, hfold]
                  show some ((Except.ok ex : Except Unit ItemsFiltered) >>=
                      fun init => List.foldlM
                        (fun e r' => jfMerge e r'.last_played_date) init [r]) =
                    some (Except.ok merged)
                  congr 1
                  show (jfMerge ex r.last_played_date >>= pure) = Except.ok merged
                  rw [hmg]
                  rfl
          · have hrn : r.name ≠ some n := by
              rw [hr]
              exact fun hcon => heq (by injection hcon)
            have hevs : jfEventsFor n (l ++ [it]) = jfEventsFor n l := by
              simp [jfEventsFor, List.filterMap_append, hc, hrn]
            rw [hevs]
            rw [hk] at h₂
            rcases hf : mapFind m' t with _ | ex <;> rw [hf] at h₂ <;>
              dsimp only at h₂
            · cases h₂
              rw [mapFind_append]
              have hname : (⟨t, r.id, r.type, r.last_played_date,
                  some r.play_count, some r.is_favorite⟩ : ItemsFiltered).name = t := rfl
              simp only [hname, heq, if_false, Option.or_none]
              exact ihm
            · rcases hmg : jfMerge ex r.last_played_date with u | merged <;>
                rw [hmg] at h₂ <;> dsimp only at h₂
              · cases h₂
              · cases h₂
                have hex := mapFind_mem m' t ex hf
                rw [mapFind_update_other m' t n _
                  (fun e' _ => by rw [jfMerge_name_eq ex _ merged hmg]; exact hex.2)
                  (fun hcon => heq hcon.symm)]
                exact ihm
      · rw [if_neg ht] at h₂
        cases h₂
        have hrn : r.name ≠ some n := by
          intro hcon
          rw [hcon] at ht
          simp [truthyStr] at ht
          exact hn ht
        have hevs : jfEventsFor n (l ++ [it]) = jfEventsFor n l := by
          simp [jfEventsFor, List.filterMap_append, hc, hrn]
        rw [hevs]
        exact ihm

theorem jfFoldM_fields (rs : List JResolved) (entry m : ItemsFiltered)
    (h : rs.foldlM (fun e r => jfMerge e r.last_played_date) entry = .ok m) :
    m.name = entry.name ∧ m.id = entry.id ∧ m.type = entry.type ∧
      m.play_count = entry.play_count ∧ m.is_favorite = entry.is_favorite := by
  induction rs generalizing entry with
  | nil =>
    have hp : (pure entry : Except Unit ItemsFiltered) = .ok m := h
    cases hp
    exact ⟨rfl, rfl, rfl, rfl, rfl⟩
  | cons r rest ih =>
    rw [List.foldlM_cons] at h
    rcases (except_bind_ok _ _ _).mp h with ⟨e₁, h₁, h₂⟩
    have hfields := ih e₁ h₂
    rcases jfMerge_cases entry _ e₁ h₁ with rfl | ⟨d, _, rfl⟩
    · exact hfields
    · exact hfields

theorem jfFoldM_ok_truthy (rs : List JResolved) :
    ∀ entry : ItemsFiltered, truthyStr entry.last_played_date →
    (∀ r ∈ rs, truthyStr r.last_played_date) →
    ∃ m, rs.foldlM (fun e r => jfMerge e r.last_played_date) entry = .ok m ∧
      m.last_played_date =
        rs.foldl (fun a r => omax a r.last_played_date) entry.last_played_date := by
  induction rs with
  | nil => intro entry _ _; exact ⟨entry, rfl, rfl⟩
  | cons r rest ih =>
    intro entry he hrs
    have hr := hrs r (by simp)
    have hstep := jfMerge_ok_of_truthy entry r.last_played_date he hr
    have he₁ : truthyStr (omax entry.last_played_date r.last_played_date) :=
      truthy_omax _ _ he hr
    rcases ih { entry with last_played_date := omax entry.last_played_date r.last_played_date }
        he₁ (fun r' h' => hrs r' (by simp [h'])) with ⟨m, hm, hd⟩
    refine ⟨m, ?_, ?_⟩
    · rw [List.foldlM_cons, hstep]
      simpa using hm
    · rw [List.foldl_cons]
      simpa using hd

theorem foldl_plexDateStep_eq_omax (rs : List PResolved) :
    ∀ a : Option String, a ≠ some "" → (∀ r ∈ rs, r.last_played_date ≠ some "") →
    rs.foldl (fun x r => plexDateStep "history" x r.last_played_date) a =
      rs.foldl (fun x r => omax x r.last_played_date) a := by
  induction rs with
  | nil => intro a _ _; rfl
  | cons r rest ih =>
    intro a ha hrs
    rw [List.foldl_cons, List.foldl_cons,
      plexDateStep_eq_omax a r.last_played_date ha (hrs r (by simp))]
    exact ih (omax a r.last_played_date)
      (omax_ne_empty _ _ ha (hrs r (by simp)))
      (fun r' h' => hrs r' (by simp [h']))

theorem foldl_omax_to_maxDate (d₀ : Option String) (ds : List (Option String)) :
    ds.foldl omax d₀ = maxDate ((d₀ :: ds).filterMap id) := by
  rw [foldl_omax_eq, ← oMaxList_cons, oMaxList_eq_maxDate]

theorem filterMap_id_cons_map {α : Type} (f : α → Option String) (a : α) (l : List α) :
    (f a :: l.map f).filterMap id = (a :: l).filterMap f := by
  rcases h : f a with _ | s <;>
    simp [List.filterMap_cons, h, List.filterMap_map, Function.comp]

/-- The consolidated date of a Plex history item equals the greatest
non-absent date among its name's events. -/
theorem plexConsolidate_date_max (items : List PlexItem) (e : ItemsFiltered)
    (he : e ∈ plexConsolidate "history" items)
    (hclean : ∀ r ∈ plexEventsFor "history" e.name items,
      r.last_played_date ≠ some "") :
    e.last_played_date = maxDate (plexPresentDatesFor "history" e.name items) := by
  have hne := plexConsolidate_name_ne "history" items e he
  have hnd := plexConsolidate_nodup "history" items
  have hfind := mapFind_of_mem_nodup _ e hnd he
  rw [plexFind_consolidate "history" items e.name hne] at hfind
  rcases hev : plexEventsFor "history" e.name items with _ | ⟨r₀, rest⟩
  · rw [hev] at hfind
    simp [plexConsolidateOne] at hfind
  · rw [hev] at hfind
    simp only [plexConsolidateOne] at hfind
    have hee := Option.some.inj hfind
    have hdate := congrArg ItemsFiltered.last_played_date hee
    rw [plexFold_date] at hdate
    rw [hev] at hclean
    have hmk : (mkPlexEntry r₀).last_played_date = r₀.last_played_date := rfl
    rw [hmk] at hdate
    rw [foldl_plexDateStep_eq_omax rest r₀.last_played_date
      (hclean r₀ (by simp)) (fun r' h' => hclean r' (by simp [h']))] at hdate
    rw [← List.foldl_map (fun r : PResolved => r.last_played_date) omax] at hdate
    rw [foldl_omax_to_maxDate] at hdate
    rw [← hdate]
    unfold plexPresentDatesFor
    rw [hev]
    congr 1
    exact filterMap_id_cons_map (fun r : PResolved => r.last_played_date) r₀ rest

/-- Under all-truthy event dates, Jellyfin consolidation succeeds and
every consolidated date is the greatest date among its name's events. -/
theorem jfConsolidate_date_max (items : List JItem)
    (hit : ∀ it ∈ items, ∀ r, jfClassify it = some r → truthyStr r.name →
      truthyStr r.last_played_date) :
    ∃ m, jfConsolidate items = .ok m ∧
      ∀ e ∈ m, e.last_played_date = maxDate (jfPresentDatesFor e.name items) := by
  rcases jfConsolidate_ok_of_truthy items hit with ⟨m, hm, _⟩
  refine ⟨m, hm, ?_⟩
  intro e he
  have hne := jfConsolidate_name_ne items m hm e he
  have hnd := jfConsolidate_nodup items m hm
  have hfind := mapFind_of_mem_nodup m e hnd he
  have hmaster := jfFind_consolidate items e.name hne m hm
  rw [hfind] at hmaster
  have hervt : ∀ r ∈ jfEventsFor e.name items, truthyStr r.last_played_date := by
    intro r hr
    rcases List.mem_filterMap.mp hr with ⟨it, hit', hcl⟩
    rcases hcc : jfClassify it with _ | r' <;> rw [hcc] at hcl <;> dsimp only at hcl
    · cases hcl
    · by_cases hrn : r'.name = some e.name
      · rw [if_pos hrn] at hcl
        cases hcl
        exact hit it hit' r hcc (by simp [hrn, truthyStr, hne])
      · rw [if_neg hrn] at hcl
        cases hcl
  rcases hev : jfEventsFor e.name items with _ | ⟨r₀, rest⟩
  · rw [hev] at hmaster
    simp [jfConsolidateOne] at hmaster
  · rw [hev] at hmaster
    simp only [jfConsolidateOne] at hmaster
    have hfoldm : List.foldlM (fun e r' => jfMerge e r'.last_played_date)
        (mkJfEntry r₀) rest = .ok e := by
      simpa using hmaster
    rw [hev] at hervt
    have hr₀t : truthyStr (mkJfEntry r₀).last_played_date :=
      hervt r₀ (by simp)
    rcases jfFoldM_ok_truthy rest (mkJfEntry r₀) hr₀t
        (fun r' h' => hervt r' (by simp [h'])) with ⟨m', hm', hd'⟩
    rw [hfoldm] at hm'
    cases hm'
    have hmk : (mkJfEntry r₀).last_played_date = r₀.last_played_date := rfl
    rw [hmk] at hd'
    rw [hd', ← List.foldl_map (fun r : JResolved => r.last_played_date) omax,
      foldl_omax_to_maxDate]
    unfold jfPresentDatesFor
    rw [hev]
    congr 1
    exact filterMap_id_cons_map (fun r : JResolved => r.last_played_date) r₀ rest

/-- The consolidated play count of a Plex item is the first non-absent
play count among its name's events. -/
theorem plexConsolidate_play_count (st : String) (items : List PlexItem)
    (e : ItemsFiltered) (he : e ∈ plexConsolidate st items) :
    e.play_count =
      firstSome ((plexEventsFor st e.name items).map (fun r => r.play_count)) := by
  have hne := plexConsolidate_name_ne st items e he
  have hnd := plexConsolidate_nodup st items
  have hfind := mapFind_of_mem_nodup _ e hnd he
  rw [plexFind_consolidate st items e.name hne] at hfind
  rcases hev : plexEventsFor st e.name items with _ | ⟨r₀, rest⟩
  · rw [hev] at hfind
    simp [plexConsolidateOne] at hfind
  · rw [hev] at hfind
    simp only [plexConsolidateOne] at hfind
    have hee := Option.some.inj hfind
    have hpc := congrArg ItemsFiltered.play_count hee
    rw [plexFold_play_count] at hpc
    rw [List.map_cons, firstSome_cons, List.foldl_map]
    rw [← hpc]
    rfl

/-- The consolidated favorite flag of a Plex item is the first non-absent
flag among its name's events. -/
theorem plexConsolidate_is_favorite (st : String) (items : List PlexItem)
    (e : ItemsFiltered) (he : e ∈ plexConsolidate st items) :
    e.is_favorite =
      firstSome ((plexEventsFor st e.name items).map (fun r => r.is_favorite)) := by
  have hne := plexConsolidate_name_ne st items e he
  have hnd := plexConsolidate_nodup st items
  have hfind := mapFind_of_mem_nodup _ e hnd he
  rw [plexFind_consolidate st items e.name hne] at hfind
  rcases hev : plexEventsFor st e.name items with _ | ⟨r₀, rest⟩
  · rw [hev] at hfind
    simp [plexConsolidateOne] at hfind
  · rw [hev] at hfind
    simp only [plexConsolidateOne] at hfind
    have hee := Option.some.inj hfind
    have hfv := congrArg ItemsFiltered.is_favorite hee
    rw [plexFold_is_favorite] at hfv
    rw [List.map_cons, firstSome_cons, List.foldl_map]
    rw [← hfv]
    rfl

/-- The id and type of a consolidated Plex item come from the first event
for its name. -/
theorem plexConsolidate_id_type (st : String) (items : List PlexItem)
    (e : ItemsFiltered) (he : e ∈ plexConsolidate st items) :
    ∃ r₀ rest, plexEventsFor st e.name items = r₀ :: rest ∧
      e.id = some r₀.id ∧ e.type = r₀.type ∧ e.name = r₀.name := by
  have hne := plexConsolidate_name_ne st items e he
  have hnd := plexConsolidate_nodup st items
  have hfind := mapFind_of_mem_nodup _ e hnd he
  rw [plexFind_consolidate st items e.name hne] at hfind
  rcases hev : plexEventsFor st e.name items with _ | ⟨r₀, rest⟩
  · rw [hev] at hfind
    simp [plexConsolidateOne] at hfind
  · rw [hev] at hfind
    simp only [plexConsolidateOne] at hfind
    have hee := Option.some.inj hfind
    refine ⟨r₀, rest, rfl, ?_, ?_, ?_⟩
    · rw [← congrArg ItemsFiltered.id hee, plexFold_id]; rfl
    · rw [← congrArg ItemsFiltered.type hee, plexFold_type]; rfl
    · rw [← congrArg ItemsFiltered.name hee, plexFold_name]; rfl

/-- The play count, favorite flag, id and type of a consolidated Jellyfin
item come entirely from the first event for its name. -/
theorem jfConsolidate_first_event (items : List JItem) (m : List ItemsFiltered)
    (hm : jfConsolidate items = .ok m) (e : ItemsFiltered) (he : e ∈ m) :
    ∃ r₀ rest, jfEventsFor e.name items = r₀ :: rest ∧
      e.play_count = some r₀.play_count ∧ e.is_favorite = some r₀.is_favorite ∧
      e.id = r₀.id ∧ e.type = r₀.type := by
  have hne := jfConsolidate_name_ne items m hm e he
  have hnd := jfConsolidate_nodup items m hm
  have hfind := mapFind_of_mem_nodup m e hnd he
  have hmaster := jfFind_consolidate items e.name hne m hm
  rw [hfind] at hmaster
  rcases hev : jfEventsFor e.name items with _ | ⟨r₀, rest⟩
  · rw [hev] at hmaster
    simp [jfConsolidateOne] at hmaster
  · rw [hev] at hmaster
    simp only [jfConsolidateOne] at hmaster
    have hfoldm : List.foldlM (fun e r' => jfMerge e r'.last_played_date)
        (mkJfEntry r₀) rest = .ok e := by
      simpa using hmaster
    have hfields := jfFoldM_fields rest (mkJfEntry r₀) e hfoldm
    exact ⟨r₀, rest, rfl, hfields.2.2.2.1, hfields.2.2.2.2, hfields.2.1, hfields.2.2.1⟩

/-- A name appears among the consolidated Plex items exactly when it is
non-empty and some event resolves to it. -/
theorem plexConsolidate_mem_names (st : String) (items : List PlexItem) (n : String) :
    n ∈ namesOf (plexConsolidate st items) ↔
      n ≠ "" ∧ plexEventsFor st n items ≠ [] := by
  constructor
  · intro hmem
    rcases (mem_namesOf _ n).mp hmem with ⟨e, he, rfl⟩
    have hne := plexConsolidate_name_ne st items e he
    refine ⟨hne, ?_⟩
    have hfind := mapFind_of_mem_nodup _ e (plexConsolidate_nodup st items) he
    rw [plexFind_consolidate st items e.name hne] at hfind
    intro hev
    rw [hev] at hfind
    simp [plexConsolidateOne] at hfind
  · rintro ⟨hne, hev⟩
    rw [← mapFind_isSome_iff, plexFind_consolidate st items n hne]
    rcases hx : plexEventsFor st n items with _ | ⟨r₀, rest⟩
    · exact absurd hx hev
    · simp [plexConsolidateOne]

/-- Same membership characterization for Jellyfin, on a successful run. -/
theorem jfConsolidate_mem_names (items : List JItem) (m : List ItemsFiltered)
    (hm : jfConsolidate items = .ok m) (n : String) :
    n ∈ namesOf m ↔ n ≠ "" ∧ jfEventsFor n items ≠ [] := by
  constructor
  · intro hmem
    rcases (mem_namesOf _ n).mp hmem with ⟨e, he, rfl⟩
    have hne := jfConsolidate_name_ne items m hm e he
    refine ⟨hne, ?_⟩
    have hfind := mapFind_of_mem_nodup _ e (jfConsolidate_nodup items m hm) he
    have hmaster := jfFind_consolidate items e.name hne m hm
    rw [hfind] at hmaster
    intro hev
    rw [hev] at hmaster
    simp [jfConsolidateOne] at hmaster
  · rintro ⟨hne, hev⟩
    rw [← mapFind_isSome_iff]
    have hmaster := jfFind_consolidate items n hne m hm
    rcases hx : jfEventsFor n items with _ | ⟨r₀, rest⟩
    · exact absurd hx hev
    · rw [hx] at hmaster
      simp only [jfConsolidateOne] at hmaster
      rcases hq : mapFind m n with _ | e
      · rw [hq] at hmaster
        simp at hmaster
      · simp

/-! ## Claim theorems -/

/-- C5: `lookup_media` called with neither a (truthy) title nor both a
truthy catalog id (`tmdb_id`) and a truthy `media_type` returns a failure
`APIResult` with `success = false` and `status_code` 400 and issues no
network request; likewise an id lookup whose `media_type` is outside
`movie`/`tv` returns the 400 failure with no request. -/
theorem c5_lookup_media_validation :
    (∀ (net : Net) (title tmdb_id media_type : Option JsonVal),
      truthyOpt title = false →
      (truthyOpt tmdb_id = false ∨ truthyOpt media_type = false) →
      lookup_media net title tmdb_id media_type =
        ([], { success := false,
               message := some "Either 'title' or both 'tmdb_id' and 'media_type' must be provided for lookup.",
               status_code := some 400 })) ∧
    (∀ (net : Net) (title tmdb_id media_type : Option JsonVal),
      truthyOpt title = false →
      truthyOpt tmdb_id = true → truthyOpt media_type = true →
      jsonEqStr (media_type.getD .null) "movie" = false →
      jsonEqStr (media_type.getD .null) "tv" = false →
      lookup_media net title tmdb_id media_type =
        ([], { success := false,
               message := some "Invalid media_type for tmdb_id lookup. Must be 'movie' or 'tv'.",
               status_code := some 400 })) := by
  constructor
  · intro net title tmdb_id media_type ht hid
    unfold lookup_media
    rcases hid with h | h <;> simp [ht, h]
  · intro net title tmdb_id media_type ht hid hmt hm htv
    unfold lookup_media
    simp [ht, hid, hmt, hm, htv]

/-- Witness for C5 at concrete inputs: an empty identifier bag and an id
lookup with `media_type = "book"` both return the 400 envelope with an
empty request trace. -/
theorem c5_lookup_media_validation_witness :
    lookup_media okNet none none none =
      ([], { success := false,
             message := some "Either 'title' or both 'tmdb_id' and 'media_type' must be provided for lookup.",
             status_code := some 400 }) ∧
    lookup_media okNet none (some (.int 5)) (some (.str "book")) =
      ([], { success := false,
             message := some "Invalid media_type for tmdb_id lookup. Must be 'movie' or 'tv'.",
             status_code := some 400 }) :=
  ⟨c5_lookup_media_validation.1 okNet none none none rfl (Or.inl rfl),
   c5_lookup_media_validation.2 okNet none (some (.int 5)) (some (.str "book"))
     rfl rfl rfl rfl rfl⟩

/-- C6: `add_media` returns a 400 failure `APIResult` and issues no
network request whenever `item_info` lacks a truthy `mediaType` or
`title`, or the `mediaType` is outside `movie`/`tv`; the validation
happens before any network activity. -/
theorem c6_add_media_validation :
    (∀ (net : Net) (item_info : List (String × JsonVal))
       (qpi : Option Int) (rfp : Option String) (mon : Bool)
       (addopts : Option (List (String × JsonVal))),
      (truthyOpt (dget item_info "mediaType") = false ∨
        truthyOpt (dget item_info "title") = false) →
      add_media net item_info qpi rfp mon addopts =
        .ok ([], { success := false,
                   message := some "item_info must contain 'mediaType' and 'title'",
                   status_code := some 400 })) ∧
    (∀ (net : Net) (item_info : List (String × JsonVal))
       (qpi : Option Int) (rfp : Option String) (mon : Bool)
       (addopts : Option (List (String × JsonVal))),
      truthyOpt (dget item_info "mediaType") = true →
      truthyOpt (dget item_info "title") = true →
      jsonEqStr ((dget item_info "mediaType").getD .null) "movie" = false →
      jsonEqStr ((dget item_info "mediaType").getD .null) "tv" = false →
      add_media net item_info qpi rfp mon addopts =
        .ok ([], { success := false,
                   message := some "Invalid media_type. Must be 'movie' or 'tv'.",
                   status_code := some 400,
                   error := some (.obj [("details",
                     .str "Invalid media_type. Must be 'movie' or 'tv'.")]) })) := by
  constructor
  · intro net item_info qpi rfp mon addopts h
    unfold add_media
    rcases h with h | h <;> simp [h] <;> rfl
  · intro net item_info qpi rfp mon addopts hmt ht hm htv
    unfold add_media
    simp [hmt, ht, hm, htv]
    rfl

/-- Witness for C6 at concrete inputs: an empty `item_info` and a `book`
media kind both yield the 400 envelope without a request. -/
theorem c6_add_media_validation_witness :
    add_media okNet [] none none true none =
      .ok ([], { success := false,
                 message := some "item_info must contain 'mediaType' and 'title'",
                 status_code := some 400 }) ∧
    add_media okNet [("mediaType", .str "book"), ("title", .str "T")] none none true none =
      .ok ([], { success := false,
                 message := some "Invalid media_type. Must be 'movie' or 'tv'.",
                 status_code := some 400,
                 error := some (.obj [("details",
                   .str "Invalid media_type. Must be 'movie' or 'tv'.")]) }) :=
  ⟨c6_add_media_validation.1 okNet [] none none true none (Or.inl rfl),
   c6_add_media_validation.2 okNet [("mediaType", .str "book"), ("title", .str "T")]
     none none true none rfl rfl rfl rfl⟩

/-- C7: when `add_media` passes validation it first performs an implicit
title lookup and uses the first match's `id` as the request's `mediaId`;
a failed lookup or an empty match list still issues the downstream
`POST request` with a null `mediaId`.  The last two conjuncts show the
computed id is `none` exactly in those cases, and the second conjunct
shows the payload's `mediaId` field carries the computed id (null when
absent). -/
theorem c7_add_media_implicit_lookup :
    (∀ (net : Net) (item_info : List (String × JsonVal))
       (qpi : Option Int) (rfp : Option String) (mon : Bool)
       (addopts : Option (List (String × JsonVal))) (mid : Option JsonVal),
      truthyOpt (dget item_info "mediaType") = true →
      truthyOpt (dget item_info "title") = true →
      (jsonEqStr ((dget item_info "mediaType").getD .null) "movie" = true ∨
        jsonEqStr ((dget item_info "mediaType").getD .null) "tv" = true) →
      addMediaLookupId
        (net (searchRequest ((dget item_info "title").getD .null))) = .ok mid →
      addMediaLogFailure
        (net (addMediaRequest item_info (addopts.getD []) mid qpi rfp)) = .ok () →
      add_media net item_info qpi rfp mon addopts =
        .ok ([searchRequest ((dget item_info "title").getD .null),
              addMediaRequest item_info (addopts.getD []) mid qpi rfp],
             net (addMediaRequest item_info (addopts.getD []) mid qpi rfp))) ∧
    (∀ (mt : JsonVal) (mid : Option JsonVal) (is4k tsi : JsonVal)
       (uid : Option JsonVal) (qpi : Option Int) (rfp : Option String),
      dget (addMediaPayload mt mid is4k tsi uid qpi rfp) "mediaId" =
        some (mid.getD .null)) ∧
    (∀ resp : APIResponse, resp.success = false → addMediaLookupId resp = .ok none) ∧
    (∀ (resp : APIResponse) (d : List (String × JsonVal)), resp.success = true →
      resp.data = .obj d → dget d "results" = some (.arr []) →
      addMediaLookupId resp = .ok none) := by
  refine ⟨?_, ?_, ?_, ?_⟩
  · intro net item_info qpi rfp mon addopts mid hmt ht hmv hlk hlog
    have hlkup : lookup_media net (dget item_info "title") none none =
        ([searchRequest ((dget item_info "title").getD .null)],
          net (searchRequest ((dget item_info "title").getD .null))) := by
      unfold lookup_media searchRequest
      simp [ht]
    have h1 : ¬((!truthyOpt (dget item_info "mediaType")) = true ∨
        (!truthyOpt (dget item_info "title")) = true) := by
      simp [hmt, ht]
    have h2 : ¬((!jsonEqStr ((dget item_info "mediaType").getD .null) "movie") = true ∧
        (!jsonEqStr ((dget item_info "mediaType").getD .null) "tv") = true) := by
      rcases hmv with h | h <;> simp [h]
    unfold add_media
    rw [if_neg h1, if_neg h2, hlkup]
    dsimp only
    rw [hlk]
    show (addMediaLogFailure
        (net (addMediaRequest item_info (addopts.getD []) mid qpi rfp)) >>=
      fun _ => pure ([searchRequest ((dget item_info "title").getD .null),
          addMediaRequest item_info (addopts.getD []) mid qpi rfp],
        net (addMediaRequest item_info (addopts.getD []) mid qpi rfp))) = _
    rw [hlog]
    rfl
  · intro mt mid is4k tsi uid qpi rfp
    unfold addMediaPayload dget
    rcases uid with _ | u <;> rcases tsi <;> rcases qpi with _ | p <;>
      rcases rfp with _ | rf <;> simp [List.find?]
  · intro resp h
    unfold addMediaLookupId
    simp [h]
  · intro resp d hs hd hr
    unfold addMediaLookupId
    simp [hs, hd, hr, truthyJson]

/-- Witness for C7: with an oracle returning one match of id 42, adding
movie `T` issues the search then the `POST request` whose `mediaId` is 42. -/
theorem c7_add_media_implicit_lookup_witness :
    add_media idNet [("mediaType", .str "movie"), ("title", .str "T")]
        none none true none =
      .ok ([searchRequest (.str "T"),
            addMediaRequest [("mediaType", .str "movie"), ("title", .str "T")] []
              (some (.int 42)) none none],
           idNet (addMediaRequest [("mediaType", .str "movie"), ("title", .str "T")]
             [] (some (.int 42)) none none)) ∧
    dget (addMediaPayload (.str "movie") (some (.int 42)) (.bool false) (.int 0)
        none none none) "mediaId" = some (.int 42) :=
  ⟨c7_add_media_implicit_lookup.1 idNet
      [("mediaType", .str "movie"), ("title", .str "T")] none none true none
      (some (.int 42)) rfl rfl (Or.inl rfl) rfl rfl,
   c7_add_media_implicit_lookup.2.1 (.str "movie") (some (.int 42)) (.bool false)
      (.int 0) none none none⟩

theorem except_ok_bind {α β : Type} (a : α) (f : α → Except Unit β) :
    ((Except.ok a : Except Unit α) >>= f) = f a := rfl

theorem except_error_bind {α β : Type} (u : Unit) (f : α → Except Unit β) :
    ((Except.error u : Except Unit α) >>= f) = .error u := rfl

theorem envelopeInv_fail (msg : String) (hm : msg ≠ "") (d : JsonVal)
    (er : Option JsonVal) (sc : Option Int) :
    envelopeInv { success := false, data := d, message := some msg,
                  error := er, status_code := sc } :=
  ⟨fun h => by simp at h, fun _ => ⟨msg, rfl, hm⟩⟩

/-- C8: assuming the transport's responses satisfy the envelope invariant
(`success` implies no `error`; failure implies a non-empty `message`),
every `APIResult` a provider operation returns satisfies it too; and
`get_quality_profiles` returns a success with empty data and an
explanatory message, with no request issued. -/
theorem c8_envelope_invariant :
    (∀ net : Net, (∀ req, envelopeInv (net req)) →
      (∀ title tmdb_id media_type : Option JsonVal,
        envelopeInv (lookup_media net title tmdb_id media_type).2) ∧
      (∀ (item_info : List (String × JsonVal)) (qpi : Option Int)
         (rfp : Option String) (mon : Bool)
         (addopts : Option (List (String × JsonVal)))
         (tr : List NetRequest) (resp : APIResponse),
        add_media net item_info qpi rfp mon addopts = .ok (tr, resp) →
        envelopeInv resp) ∧
      (∀ (dn : Option String) (tr : List NetRequest) (resp : APIResponse),
        get_users net dn = .ok (tr, resp) → envelopeInv resp)) ∧
    envelopeInv get_quality_profiles.2 ∧
    get_quality_profiles.1 = [] ∧
    get_quality_profiles.2.success = true ∧
    get_quality_profiles.2.data = .arr [] ∧
    get_quality_profiles.2.message =
      some "Jellyseerr manages quality profiles internally via its Sonarr/Radarr configurations." := by
  refine ⟨?_, ⟨fun _ => rfl, fun h => absurd h (by decide)⟩, rfl, rfl, rfl, rfl⟩
  intro net hnet
  refine ⟨?_, ?_, ?_⟩
  · intro title tmdb_id media_type
    unfold lookup_media
    by_cases ht : truthyOpt title = true
    · simp only [ht, if_pos]
      exact hnet _
    · simp only [ht, Bool.false_eq_true, if_false]
      by_cases hid : (truthyOpt tmdb_id = true ∧ truthyOpt media_type = true)
      · rw [if_pos hid]
        by_cases hmv : (jsonEqStr (media_type.getD .null) "movie" = true ∨
            jsonEqStr (media_type.getD .null) "tv" = true)
        · rw [if_pos hmv]
          exact hnet _
        · rw [if_neg hmv]
          exact envelopeInv_fail _ (by decide) _ _ _
      · rw [if_neg hid]
        exact envelopeInv_fail _ (by decide) _ _ _
  · intro item_info qpi rfp mon addopts tr resp hok
    unfold add_media at hok
    by_cases h1 : ((!truthyOpt (dget item_info "mediaType")) = true ∨
        (!truthyOpt (dget item_info "title")) = true)
    · rw [if_pos h1] at hok
      cases hok
      exact envelopeInv_fail _ (by decide) _ _ _
    · rw [if_neg h1] at hok
      by_cases h2 : ((!jsonEqStr ((dget item_info "mediaType").getD .null) "movie") = true ∧
          (!jsonEqStr ((dget item_info "mediaType").getD .null) "tv") = true)
      · rw [if_pos h2] at hok
        cases hok
        exact envelopeInv_fail _ (by decide) _ _ _
      · rw [if_neg h2] at hok
        simp only [pure_bind] at hok
        rcases hmid : addMediaLookupId
            (lookup_media net (dget item_info "title") none none).2 with u | mid <;>
          rw [hmid] at hok <;>
          simp only [except_error_bind, except_ok_bind] at hok
        · cases hok
        · rcases hlg : addMediaLogFailure (net ⟨"POST", "request", [],
              some (.obj (addMediaPayload ((dget item_info "mediaType").getD .null) mid
                ((dget (addopts.getD []) "is_4k").getD (.bool false))
                ((dget (addopts.getD []) "target_server_id").getD (.int 0))
                (dget (addopts.getD []) "user_id") qpi rfp))⟩) with u2 | v <;>
            rw [hlg] at hok <;>
            simp only [except_error_bind, except_ok_bind] at hok
          · cases hok
          · cases hok
            exact hnet _
  · intro dn tr resp hok
    unfold get_users at hok
    by_cases hs : (net ⟨"GET", "user", [("skip", .int 0), ("take", .int 100)], none⟩).success = true
    · rw [if_pos hs] at hok
      rcases hd : (net ⟨"GET", "user", [("skip", .int 0), ("take", .int 100)], none⟩).data
        with _ | _ | _ | _ | l | d <;> rw [hd] at hok <;> dsimp only at hok
      · cases hok; exact envelopeInv_fail _ (by decide) _ _ _
      · cases hok; exact envelopeInv_fail _ (by decide) _ _ _
      · cases hok; exact envelopeInv_fail _ (by decide) _ _ _
      · cases hok; exact envelopeInv_fail _ (by decide) _ _ _
      · cases hok; exact envelopeInv_fail _ (by decide) _ _ _
      · by_cases hdn : truthyStr dn = true
        · rw [if_pos hdn] at hok
          rcases hau : (dget d "results").getD (.arr []) with _ | _ | _ | _ | l | d2 <;>
            rw [hau] at hok <;> dsimp only at hok
          · cases hok
          · cases hok
          · cases hok
          · cases hok
          · rcases (except_bind_ok _ _ _).mp hok with ⟨filtered, _, hpure⟩
            cases hpure
            exact ⟨fun h => (hnet _).1 h, fun h => (hnet _).2 h⟩
          · cases hok
        · rw [if_neg hdn] at hok
          cases hok
          exact ⟨fun h => (hnet _).1 h, fun h => (hnet _).2 h⟩
    · rw [if_neg hs] at hok
      cases hok
      exact hnet _

/-- Witness for C8: with a well-formed constant oracle, a concrete lookup
response and a concrete `get_users` response both satisfy the envelope
invariant. -/
theorem c8_envelope_invariant_witness :
    envelopeInv (lookup_media okNet (some (.str "T")) none none).2 ∧
    envelopeInv { success := false, data := JsonVal.null,
                  message := some "Unexpected data format from Jellyseerr /user endpoint.",
                  error := none, status_code := none } := by
  have hnet : ∀ req, envelopeInv (okNet req) :=
    fun _ => ⟨fun _ => rfl, fun h => by simp [okNet] at h⟩
  refine ⟨(c8_envelope_invariant.1 okNet hnet).1 (some (.str "T")) none none, ?_⟩
  exact (c8_envelope_invariant.1 okNet hnet).2.2 none
    [⟨"GET", "user", [("skip", .int 0), ("take", .int 100)], none⟩] _ rfl

/-- C9: each adapter query returns `None` exactly on a missing
configuration, a transport/parse error, or an unavailable server; a body
that answers with data comes through as-is (so an empty `Items` array is
returned as the empty sequence); and, the embedded functions being total,
no transport exception crosses the adapter boundary. -/
theorem c9_adapter_null_contract :
    (∀ (url apiKey userId : String) (http : HttpOutcome),
      ((url = "" ∨ apiKey = "" ∨ userId = "") →
        jellyfin_get_recently_watched url apiKey userId http = none) ∧
      (jellyfin_get_recently_watched url apiKey userId .requestError = none ∧
        jellyfin_get_recently_watched url apiKey userId .jsonError = none ∧
        jellyfin_get_recently_watched url apiKey userId .otherError = none) ∧
      (∀ (d : List (String × JsonVal)) (v : JsonVal),
        url ≠ "" → apiKey ≠ "" → userId ≠ "" → dget d "Items" = some v →
        jellyfin_get_recently_watched url apiKey userId (.ok (.obj d)) = some v) ∧
      (∀ d : List (String × JsonVal), dget d "Items" = none →
        jellyfin_get_recently_watched url apiKey userId (.ok (.obj d)) = none)) ∧
    (∀ (url apiKey userId : String) (http : HttpOutcome),
      jellyfin_get_favorites url apiKey userId http =
        jellyfin_get_recently_watched url apiKey userId http) ∧
    (∀ (url apiKey : String) (http : HttpOutcome),
      ((url = "" ∨ apiKey = "") → jellyfin_get_all_items url apiKey http = none) ∧
      (jellyfin_get_all_items url apiKey .requestError = none ∧
        jellyfin_get_all_items url apiKey .jsonError = none ∧
        jellyfin_get_all_items url apiKey .otherError = none) ∧
      (∀ d : List (String × JsonVal), url ≠ "" → apiKey ≠ "" →
        jellyfin_get_all_items url apiKey (.ok (.obj d)) =
          some ((dget d "Items").getD (.arr [])))) ∧
    (∀ (userId : String) (hist : PlexHistoryOutcome),
      (plex_get_recently_watched false userId hist = none) ∧
      (plex_get_recently_watched true "" hist = none) ∧
      (pyIntParse userId = none → plex_get_recently_watched true userId hist = none) ∧
      (userId ≠ "" → pyIntParse userId ≠ none →
        plex_get_recently_watched true userId .err = none ∧
        plex_get_recently_watched true userId .notFound = some [] ∧
        (∀ items, plex_get_recently_watched true userId (.ok items) =
          some (items.filter isWatchedVideo)))) ∧
    (∀ (limit : Int) (lib : PlexLibraryOutcome),
      plex_get_favorites false limit lib = none ∧
      plex_get_favorites true limit .err = none ∧
      (∀ sections, plex_get_favorites true limit (.ok sections) =
        some (((sections.filter (fun s => s.1 = "movie" ∨ s.1 = "show")).flatMap
          (fun s => s.2.filter isFavoriteItem)).take limit.toNat))) ∧
    (∀ lib : PlexLibraryOutcome,
      plex_get_all_items false lib = none ∧
      plex_get_all_items true .err = none ∧
      (∀ sections, plex_get_all_items true (.ok sections) =
        some ((sections.filter (fun s => s.1 = "movie" ∨ s.1 = "show")).flatMap
          (fun s => s.2)))) := by
  refine ⟨?_, ?_, ?_, ?_, ?_, ?_⟩
  · intro url apiKey userId http
    refine ⟨?_, ⟨?_, ?_, ?_⟩, ?_, ?_⟩
    · intro h
      unfold jellyfin_get_recently_watched
      rw [if_pos h]
    all_goals
      unfold jellyfin_get_recently_watched
    · split <;> rfl
    · split <;> rfl
    · split <;> rfl
    · intro d v hu hk hi hd
      rw [if_neg (by simp [hu, hk, hi])]
      simpa using hd
    · intro d hd
      split
      · rfl
      · simpa using hd
  · intro url apiKey userId http
    unfold jellyfin_get_favorites jellyfin_get_recently_watched
    rfl
  · intro url apiKey http
    refine ⟨?_, ⟨?_, ?_, ?_⟩, ?_⟩
    · intro h
      unfold jellyfin_get_all_items
      rw [if_pos h]
    all_goals
      unfold jellyfin_get_all_items
    · split <;> rfl
    · split <;> rfl
    · split <;> rfl
    · intro d hu hk
      rw [if_neg (by simp [hu, hk])]
  · intro userId hist
    refine ⟨rfl, rfl, ?_, ?_⟩
    · intro h
      unfold plex_get_recently_watched
      by_cases hu : userId = ""
      · simp [hu]
      · simp [hu, h]
    · intro hu hi
      rcases hp : pyIntParse userId with _ | k
      · exact absurd hp hi
      · unfold plex_get_recently_watched
        refine ⟨by simp [hu, hp], by simp [hu, hp], ?_⟩
        intro items
        simp [hu, hp]
  · intro limit lib
    refine ⟨rfl, rfl, fun sections => rfl⟩
  · intro lib
    exact ⟨rfl, rfl, fun sections => rfl⟩

/-- Witness for C9: a populated body passes through, a missing key and a
transport failure map to `None`. -/
theorem c9_adapter_null_contract_witness :
    jellyfin_get_recently_watched "u" "k" "1" (.ok (.obj [("Items", .arr [])])) =
      some (.arr []) ∧
    jellyfin_get_all_items "u" "k" (.ok (.obj [])) = some (.arr []) ∧
    plex_get_recently_watched true "7" .notFound = some [] := by
  refine ⟨?_, ?_, ?_⟩
  · exact ((c9_adapter_null_contract.1 "u" "k" "1"
      (.ok (.obj [("Items", .arr [])]))).2.2.1 [("Items", .arr [])] (.arr [])
      (by decide) (by decide) (by decide) rfl)
  · exact ((c9_adapter_null_contract.2.2.1 "u" "k" (.ok (.obj []))).2.2 []
      (by decide) (by decide))
  · exact (((c9_adapter_null_contract.2.2.2.1 "7" .notFound).2.2.2
      (by decide) (by decide)).2.1)

/-- C10: the Plex engine honours a truthy `attribute_filter` only when it
lowercases to `name` (returning the consolidated names); any other truthy
value silently yields the full consolidated item list, as does an absent
filter.  The Jellyfin engine projects any truthy attribute name through
`getattr`, and an attribute outside the model fields projects to the
empty string. -/
theorem c10_attribute_filter :
    (∀ (items : List PlexItem) (st : String) (f : Option String),
      truthyStr f = true → pyLower (f.getD "") = "name" →
      plex_get_items_filtered items st f =
        .names (namesOf (plexConsolidate st items))) ∧
    (∀ (items : List PlexItem) (st : String) (f : Option String),
      truthyStr f = true → pyLower (f.getD "") ≠ "name" →
      plex_get_items_filtered items st f =
        .items (plexConsolidate st items)) ∧
    (∀ (items : List PlexItem) (st : String),
      plex_get_items_filtered items st none =
        .items (plexConsolidate st items)) ∧
    (∀ (items : List JItem) (f : Option String) (m : List ItemsFiltered),
      truthyStr f = true → jfConsolidate items = .ok m →
      jellyfin_get_items_filtered items f =
        .ok (.attrs (m.map (fun it => itemGetattr it (pyLower (f.getD "")))))) ∧
    (∀ (it : ItemsFiltered) (a : String),
      a ∉ ["name", "id", "type", "last_played_date", "play_count", "is_favorite"] →
      itemGetattr it a = .str "") := by
  refine ⟨?_, ?_, ?_, ?_, ?_⟩
  · intro items st f ht hl
    unfold plex_get_items_filtered
    rw [if_pos ⟨ht, hl⟩]
    rfl
  · intro items st f ht hl
    unfold plex_get_items_filtered
    rw [if_neg (by simp [hl])]
  · intro items st
    rfl
  · intro items f m ht hm
    unfold jellyfin_get_items_filtered
    rw [hm]
    show (if truthyStr f = true then _ else _) = _
    rw [if_pos ht]
    rfl
  · intro it a ha
    simp only [List.mem_cons, List.mem_singleton] at ha
    push_neg at ha
    unfold itemGetattr
    rw [if_neg ha.1, if_neg ha.2.1, if_neg ha.2.2.1, if_neg ha.2.2.2.1,
      if_neg ha.2.2.2.2.1, if_neg ha.2.2.2.2.2.1]

/-- Witness for C10 on concrete inputs: `NaMe` projects to names, `bogus`
returns the item list in Plex but projects to empty strings in Jellyfin. -/
theorem c10_attribute_filter_witness :
    plex_get_items_filtered [pEpBeta1] "history" (some "NaMe") =
      .names ["Beta"] ∧
    plex_get_items_filtered [pEpBeta1] "history" (some "bogus") =
      .items [⟨"Beta", some "77", "tv", some "2024-01-02T00:00:00Z", none, none⟩] ∧
    jellyfin_get_items_filtered [jItemJan] (some "bogus") =
      .ok (.attrs [.str ""]) := by
  refine ⟨?_, ?_, ?_⟩
  · have h := c10_attribute_filter.1 [pEpBeta1] "history" (some "NaMe")
      rfl (by decide)
    rw [h]
    rfl
  · have h := c10_attribute_filter.2.1 [pEpBeta1] "history" (some "bogus")
      rfl (by decide)
    rw [h]
    rfl
  · have h := c10_attribute_filter.2.2.2.1 [jItemJan] (some "bogus")
      [⟨"A", some "id1", "movie", some "2024-01-02T00:00:00Z", some 5, some true⟩]
      rfl rfl
    rw [h]
    have hb : itemGetattr
        ⟨"A", some "id1", "movie", some "2024-01-02T00:00:00Z", some 5, some true⟩
        (pyLower "bogus") = .str "" := by decide
    simp [hb]

theorem list_eq_singleton_of (l : List String) (s : String) (hnd : l.Nodup)
    (hall : ∀ x ∈ l, x = s) (hs : s ∈ l) : l = [s] := by
  rcases l with _ | ⟨a, t⟩
  · cases hs
  · have ha := hall a (by simp)
    subst ha
    have ht : t = [] := by
      rcases t with _ | ⟨b, t2⟩
      · rfl
      · have hb := hall b (by simp)
        rw [List.nodup_cons] at hnd
        exact absurd (by simp [hb]) hnd.1
    rw [ht]

theorem namesOf_singleton (m : List ItemsFiltered) (s : String)
    (h : namesOf m = [s]) : ∃ e, m = [e] ∧ e.name = s := by
  rcases m with _ | ⟨e, rest⟩
  · cases h
  · rcases rest with _ | ⟨e₂, r2⟩
    · exact ⟨e, rfl, by injection h⟩
    · simp [namesOf] at h

/-- C4: an episode event resolves to its parent series name and
identifier with type `tv` in both engines, and an input consisting only
of episodes of one series consolidates into a single `tv` item keyed by
the series name whose id is the series identifier of the first event. -/
theorem c4_episode_series_collapse :
    (∀ it : JItem, it.itemType = "Episode" → ∀ r, jfClassify it = some r →
      r.name = it.seriesName ∧ r.id = it.seriesId ∧ r.type = "tv") ∧
    (∀ (t : String) (k : Int) (v : Option String),
      plexClassify "history" (.episodeHistory t k v) =
        some ⟨t, toString k, "tv", v, none, none⟩) ∧
    (∀ (s : String) (m : List ItemsFiltered) (it₀ : JItem) (rest : List JItem),
      s ≠ "" →
      (∀ it ∈ it₀ :: rest, it.itemType = "Episode" ∧ it.seriesName = some s) →
      jfConsolidate (it₀ :: rest) = .ok m →
      ∃ e, m = [e] ∧ e.name = s ∧ e.type = "tv" ∧ e.id = it₀.seriesId) ∧
    (∀ (s : String) (k₀ : Int) (v₀ : Option String) (rest : List PlexItem),
      s ≠ "" →
      (∀ it ∈ PlexItem.episodeHistory s k₀ v₀ :: rest, ∃ k v,
        it = PlexItem.episodeHistory s k v) →
      ∃ e, plexConsolidate "history" (.episodeHistory s k₀ v₀ :: rest) = [e] ∧
        e.name = s ∧ e.type = "tv" ∧ e.id = some (toString k₀)) := by
  have hclsJ : ∀ (it : JItem) (s : String), it.itemType = "Episode" →
      it.seriesName = some s →
      ∃ rr : JResolved, jfClassify it = some rr ∧ rr.name = some s ∧
        rr.id = it.seriesId ∧ rr.type = "tv" := by
    intro it s hep hsn
    unfold jfClassify
    rw [if_pos hep]
    exact ⟨_, rfl, by simp [hsn], rfl, rfl⟩
  refine ⟨?_, ?_, ?_, ?_⟩
  · intro it hep r hr
    unfold jfClassify at hr
    rw [if_pos hep] at hr
    cases hr
    exact ⟨rfl, rfl, rfl⟩
  · intro t k v
    rfl
  · intro s m it₀ rest hs hall hok
    have hnd := jfConsolidate_nodup _ m hok
    have hmem := jfConsolidate_mem_names _ m hok
    have hall_names : ∀ x ∈ namesOf m, x = s := by
      intro x hx
      rcases (hmem x).mp hx with ⟨hxne, hev⟩
      rcases List.exists_mem_of_ne_nil _ hev with ⟨r, hr⟩
      rcases List.mem_filterMap.mp hr with ⟨it, hit, hcl⟩
      have hep := hall it hit
      rcases hclsJ it s hep.1 hep.2 with ⟨rr, hrr, hrn, _, _⟩
      rw [hrr] at hcl
      dsimp only at hcl
      by_cases hrx : rr.name = some x
      · have hsx : some x = some s := by rw [← hrx, hrn]
        exact Option.some.inj hsx
      · rw [if_neg hrx] at hcl
        cases hcl
    have hep₀ := hall it₀ (by simp)
    rcases hclsJ it₀ s hep₀.1 hep₀.2 with ⟨rr, hrr, hrn, hrid, hrtype⟩
    have hevhead : jfEventsFor s (it₀ :: rest) = rr :: jfEventsFor s rest := by
      unfold jfEventsFor
      rw [List.filterMap_cons]
      rw [hrr]
      simp [hrn]
    have hs_mem : s ∈ namesOf m := by
      rw [hmem s]
      refine ⟨hs, ?_⟩
      rw [hevhead]
      simp
    have hnames : namesOf m = [s] :=
      list_eq_singleton_of _ s hnd hall_names hs_mem
    rcases namesOf_singleton m s hnames with ⟨e, rfl, hename⟩
    rcases jfConsolidate_first_event (it₀ :: rest) [e] hok e (by simp)
      with ⟨r₀, rest', hev, _, _, hid, htype⟩
    rw [hename, hevhead] at hev
    injection hev with h1 h2
    refine ⟨e, rfl, hename, ?_, ?_⟩
    · rw [htype, ← h1, hrtype]
    · rw [hid, ← h1, hrid]
  · intro s k₀ v₀ rest hs hall
    have hnd := plexConsolidate_nodup "history" (.episodeHistory s k₀ v₀ :: rest)
    have hmem := plexConsolidate_mem_names "history" (.episodeHistory s k₀ v₀ :: rest)
    have hall_names : ∀ x ∈ namesOf
        (plexConsolidate "history" (.episodeHistory s k₀ v₀ :: rest)), x = s := by
      intro x hx
      rcases (hmem x).mp hx with ⟨hxne, hev⟩
      rcases List.exists_mem_of_ne_nil _ hev with ⟨r, hr⟩
      rcases List.mem_filterMap.mp hr with ⟨it, hit, hcl⟩
      rcases hall it hit with ⟨k, v, rfl⟩
      rw [show plexClassify "history" (.episodeHistory s k v) =
        some ⟨s, toString k, "tv", v, none, none⟩ from rfl] at hcl
      dsimp only at hcl
      by_cases hrx : (⟨s, toString k, "tv", v, none, none⟩ : PResolved).name = x
      · exact ((show s = x from hrx)).symm
      · rw [if_neg (by simpa using hrx)] at hcl
        cases hcl
    have hevhead : plexEventsFor "history" s (.episodeHistory s k₀ v₀ :: rest) =
        ⟨s, toString k₀, "tv", v₀, none, none⟩ ::
          plexEventsFor "history" s rest := by
      unfold plexEventsFor
      rw [List.filterMap_cons]
      rw [show plexClassify "history" (.episodeHistory s k₀ v₀) =
        some ⟨s, toString k₀, "tv", v₀, none, none⟩ from rfl]
      simp
    have hs_mem : s ∈ namesOf
        (plexConsolidate "history" (.episodeHistory s k₀ v₀ :: rest)) := by
      rw [hmem s]
      refine ⟨hs, ?_⟩
      rw [hevhead]
      simp
    have hnames : namesOf (plexConsolidate "history"
        (.episodeHistory s k₀ v₀ :: rest)) = [s] :=
      list_eq_singleton_of _ s hnd hall_names hs_mem
    rcases namesOf_singleton _ s hnames with ⟨e, hm, hename⟩
    rcases plexConsolidate_id_type "history" (.episodeHistory s k₀ v₀ :: rest) e
      (by rw [hm]; simp) with ⟨r₀, rest', hev, hid, htype, _⟩
    rw [hename, hevhead] at hev
    injection hev with h1 h2
    refine ⟨e, hm, hename, ?_, ?_⟩
    · rw [htype, ← h1]
    · rw [hid, ← h1]

/-- C3: the consolidation result of either engine never contains two
items with the same name, and a name appears exactly when it is non-empty
and some input event resolves to it. -/
theorem c3_one_item_per_name :
    (∀ (st : String) (items : List PlexItem),
      (namesOf (plexConsolidate st items)).Nodup) ∧
    (∀ (st : String) (items : List PlexItem) (n : String),
      n ∈ namesOf (plexConsolidate st items) ↔
        n ≠ "" ∧ plexEventsFor st n items ≠ []) ∧
    (∀ (items : List JItem) (m : List ItemsFiltered),
      jfConsolidate items = .ok m → (namesOf m).Nodup) ∧
    (∀ (items : List JItem) (m : List ItemsFiltered),
      jfConsolidate items = .ok m →
      ∀ n, n ∈ namesOf m ↔ n ≠ "" ∧ jfEventsFor n items ≠ []) :=
  ⟨plexConsolidate_nodup,
   fun st items n => plexConsolidate_mem_names st items n,
   jfConsolidate_nodup,
   fun items m h n => jfConsolidate_mem_names items m h n⟩

/-- Witness for C3: on a concrete run with two distinct names, the names
are `Nodup` and membership matches the resolving events. -/
theorem c3_one_item_per_name_witness :
    (namesOf [(⟨"A", some "id1", "movie", some "2024-01-02T00:00:00Z",
      some 5, some true⟩ : ItemsFiltered)]).Nodup ∧
    ("A" ∈ namesOf [(⟨"A", some "id1", "movie", some "2024-01-02T00:00:00Z",
      some 5, some true⟩ : ItemsFiltered)] ↔
      "A" ≠ "" ∧ jfEventsFor "A" [jItemJan] ≠ []) :=
  ⟨c3_one_item_per_name.2.2.1 [jItemJan] _ rfl,
   c3_one_item_per_name.2.2.2 [jItemJan] _ rfl "A"⟩

/-- C1 counterexample: the Jellyfin merge compares a new date against an
absent existing date with Python `>`, which raises `TypeError`: on the
event order (no-date, dated) the engine produces no consolidated item
at all, although the name has a non-absent greatest date, so the
consolidated `last_played_date` cannot equal it regardless of
processing order. -/
theorem c1_date_merge_counterexample :
    jfConsolidate [jItemNoDate, jItemJan] = .error () ∧
    maxDate (jfPresentDatesFor "A" [jItemNoDate, jItemJan]) =
      some "2024-01-02T00:00:00Z" ∧
    jfConsolidate [jItemJan, jItemNoDate] =
      .ok [⟨"A", some "id1", "movie", some "2024-01-02T00:00:00Z",
        some 5, some true⟩] := by
  refine ⟨rfl, by decide, rfl⟩

/-- C1 (amended): in the Plex history engine the consolidated
`last_played_date` is the greatest non-absent date among the name's
events, independent of processing order, and the merge replaces the date
only for a truthy new value with falsy-or-smaller existing value; the
Jellyfin engine satisfies the same greatest-date characterization only
when every resolved event carries a truthy date — an event with an
absent date followed by a dated one raises instead. -/
theorem c1_date_merge_amended :
    (∀ (items : List PlexItem) (e : ItemsFiltered),
      e ∈ plexConsolidate "history" items →
      (∀ r ∈ plexEventsFor "history" e.name items, r.last_played_date ≠ some "") →
      e.last_played_date = maxDate (plexPresentDatesFor "history" e.name items)) ∧
    (∀ (items : List JItem),
      (∀ it ∈ items, ∀ r, jfClassify it = some r → truthyStr r.name →
        truthyStr r.last_played_date) →
      ∃ m, jfConsolidate items = .ok m ∧
        ∀ e ∈ m, e.last_played_date = maxDate (jfPresentDatesFor e.name items)) ∧
    (∀ (st n : String) (l₁ l₂ : List PlexItem), l₁.Perm l₂ →
      maxDate (plexPresentDatesFor st n l₁) = maxDate (plexPresentDatesFor st n l₂)) ∧
    (∀ (n : String) (l₁ l₂ : List JItem), l₁.Perm l₂ →
      maxDate (jfPresentDatesFor n l₁) = maxDate (jfPresentDatesFor n l₂)) ∧
    (∀ (e : ItemsFiltered) (r : PResolved),
      (plexMerge "history" e r).last_played_date ≠ e.last_played_date →
      truthyStr r.last_played_date = true ∧
        (truthyStr e.last_played_date = false ∨
          e.last_played_date.getD "" < r.last_played_date.getD "")) := by
  refine ⟨plexConsolidate_date_max, jfConsolidate_date_max, ?_, ?_, ?_⟩
  · intro st n l₁ l₂ hp
    exact maxDate_perm _ _ ((hp.filterMap _).filterMap _)
  · intro n l₁ l₂ hp
    exact maxDate_perm _ _ ((hp.filterMap _).filterMap _)
  · intro e r hne
    rw [plexMerge_date] at hne
    unfold plexDateStep at hne
    by_cases h1 : (truthyStr r.last_played_date = true ∧ "history" = "history")
    · rw [if_pos h1] at hne
      refine ⟨h1.1, ?_⟩
      by_cases h2 : ((!truthyStr e.last_played_date) = true ∨
          (e.last_played_date.getD "").data < (r.last_played_date.getD "").data)
      · rcases h2 with h2 | h2
        · exact Or.inl (by simpa using h2)
        · exact Or.inr ((strData_lt_iff _ _).mp h2)
      · rw [if_neg h2] at hne
        exact absurd rfl hne
    · rw [if_neg h1] at hne
      exact absurd rfl hne

/-- Witness for C1 (amended) on concrete inputs: two episode events of
`Beta` consolidate to the May date, the greatest of the two, in both
engines, and a concrete merge that changes the date satisfies the
replacement rule. -/
theorem c1_date_merge_amended_witness :
    ((⟨"Beta", some "77", "tv", some "2024-05-02T00:00:00Z", none,
      none⟩ : ItemsFiltered).last_played_date =
      maxDate (plexPresentDatesFor "history" "Beta" [pEpBeta1, pEpBeta2])) ∧
    ((⟨"A", some "id1", "movie", some "2024-03-02T00:00:00Z", some 5,
      some true⟩ : ItemsFiltered).last_played_date =
      maxDate (jfPresentDatesFor "A" [jItemJan, jItemMar])) ∧
    (truthyStr (some "2024-05-02T00:00:00Z") = true ∧
      (truthyStr (some "2024-01-02T00:00:00Z" : Option String) = false ∨
        (some "2024-01-02T00:00:00Z" : Option String).getD "" <
          (some "2024-05-02T00:00:00Z" : Option String).getD "")) := by
  refine ⟨c1_date_merge_amended.1 [pEpBeta1, pEpBeta2]
    ⟨"Beta", some "77", "tv", some "2024-05-02T00:00:00Z", none, none⟩
    (by decide) (by decide), ?_, ?_⟩
  · rcases c1_date_merge_amended.2.1 [jItemJan, jItemMar] (by decide)
      with ⟨m, hm, hall⟩
    have hmv : (Except.ok [(⟨"A", some "id1", "movie",
        some "2024-03-02T00:00:00Z", some 5, some true⟩ : ItemsFiltered)] :
        Except Unit (List ItemsFiltered)) = .ok m := by
      rw [← hm]
      rfl
    cases hmv
    exact hall _ (by simp)
  · exact c1_date_merge_amended.2.2.2.2
      ⟨"A", some "id1", "movie", some "2024-01-02T00:00:00Z", none, none⟩
      ⟨"A", "id1", "movie", some "2024-05-02T00:00:00Z", none, none⟩
      (by decide)

/-- C2 counterexample: in the Jellyfin engine an event without user data
creates the entry with `play_count = 0` and `is_favorite = False`, and
later events never modify these fields, so for the input (no-user-data,
play-count-5-favorite) the consolidated `play_count` is `0` although the
first non-absent raw play count is `5` (and likewise for the favorite
flag). -/
theorem c2_first_write_counterexample :
    jfConsolidate [jItemNoDate, jItemPc5NoDate] =
      .ok [⟨"A", some "id1", "movie", none, some 0, some false⟩] ∧
    firstSome [jfRawPlayCount jItemNoDate, jfRawPlayCount jItemPc5NoDate] =
      some 5 ∧
    firstSome [jfRawIsFavorite jItemNoDate, jfRawIsFavorite jItemPc5NoDate] =
      some true ∧
    (some (0 : Int) ≠ some (5 : Int)) ∧ (some false ≠ some true) := by
  refine ⟨rfl, by decide, by decide, by decide, by decide⟩

/-- C2 (amended): in the Plex engine the consolidated `play_count` and
`is_favorite` are the first non-absent values among the name's events in
enumeration order (first-write-wins, never summed), which is
order-dependent as the two concrete runs show; in the Jellyfin engine
both fields always come from the name's first event, with absent raw
values coerced to `0`/`False` at creation. -/
theorem c2_first_write_amended :
    (∀ (st : String) (items : List PlexItem) (e : ItemsFiltered),
      e ∈ plexConsolidate st items →
      e.play_count =
        firstSome ((plexEventsFor st e.name items).map (fun r => r.play_count)) ∧
      e.is_favorite =
        firstSome ((plexEventsFor st e.name items).map (fun r => r.is_favorite))) ∧
    (∀ (items : List JItem) (m : List ItemsFiltered),
      jfConsolidate items = .ok m → ∀ e ∈ m,
      ∃ r₀ rest, jfEventsFor e.name items = r₀ :: rest ∧
        e.play_count = some r₀.play_count ∧
        e.is_favorite = some r₀.is_favorite) ∧
    ((plexConsolidate "library_all" [pShow3, pShow5]).map
        (fun e => e.play_count) = [some 3] ∧
      (plexConsolidate "library_all" [pShow5, pShow3]).map
        (fun e => e.play_count) = [some 5]) := by
  refine ⟨?_, ?_, by decide, by decide⟩
  · intro st items e he
    exact ⟨plexConsolidate_play_count st items e he,
      plexConsolidate_is_favorite st items e he⟩
  · intro items m hm e he
    rcases jfConsolidate_first_event items m hm e he
      with ⟨r₀, rest, hev, hpc, hfav, _, _⟩
    exact ⟨r₀, rest, hev, hpc, hfav⟩

/-- Witness for C2 (amended) at concrete inputs: a Plex show with view
count 3 followed by one with 5 keeps 3 (and reversing the input keeps 5),
and a Jellyfin item keeps its first event's values. -/
theorem c2_first_write_amended_witness :
    ((⟨"X", some "9", "tv", none, some 3, none⟩ : ItemsFiltered).play_count =
      firstSome ((plexEventsFor "library_all" "X" [pShow3, pShow5]).map
        (fun r => r.play_count))) ∧
    ((⟨"A", some "id1", "movie", some "2024-01-02T00:00:00Z", some 5,
      some true⟩ : ItemsFiltered).play_count = some 5) := by
  refine ⟨(c2_first_write_amended.1 "library_all" [pShow3, pShow5]
    ⟨"X", some "9", "tv", none, some 3, none⟩ (by decide)).1, ?_⟩
  rcases c2_first_write_amended.2.1 [jItemJan]
      [⟨"A", some "id1", "movie", some "2024-01-02T00:00:00Z", some 5, some true⟩]
      rfl ⟨"A", some "id1", "movie", some "2024-01-02T00:00:00Z", some 5, some true⟩
      (by simp) with ⟨r₀, rest, hev, hpc, _⟩
  rw [hpc]
  have : jfEventsFor "A" [jItemJan] =
      [⟨some "A", some "id1", "movie", some "2024-01-02T00:00:00Z", 5, true⟩] := by
    decide
  rw [this] at hev
  injection hev with h1 _
  rw [← h1]

/-- Witness for C4: two `Beta` episode-history events collapse into one
`tv` item keyed by the series name with the series rating key as id, and
a concrete Jellyfin episode resolves to its series name/id with `tv`. -/
theorem c4_episode_series_collapse_witness :
    ((plexConsolidate "history" [pEpBeta1, pEpBeta2]).map
      (fun e => (e.name, e.type, e.id)) = [("Beta", "tv", some "77")]) ∧
    ((⟨some "Beta", some "77", "tv", none, 0, false⟩ : JResolved).name =
        (⟨"Episode", some "Ep1", some "e1", some "Beta", some "77",
          none⟩ : JItem).seriesName ∧
      (⟨some "Beta", some "77", "tv", none, 0, false⟩ : JResolved).id =
        (⟨"Episode", some "Ep1", some "e1", some "Beta", some "77",
          none⟩ : JItem).seriesId ∧
      (⟨some "Beta", some "77", "tv", none, 0, false⟩ : JResolved).type = "tv") := by
  constructor
  · rcases c4_episode_series_collapse.2.2.2 "Beta" 77
        (some "2024-01-02T00:00:00Z") [pEpBeta2] (by decide)
        (by
          intro it hit
          rcases List.mem_cons.mp hit with rfl | hit2
          · exact ⟨77, some "2024-01-02T00:00:00Z", rfl⟩
          · rcases List.mem_singleton.mp hit2 with rfl
            exact ⟨77, some "2024-05-02T00:00:00Z", rfl⟩)
      with ⟨e, hm, h1, h2, h3⟩
    show (plexConsolidate "history"
      (.episodeHistory "Beta" 77 (some "2024-01-02T00:00:00Z") :: [pEpBeta2])).map
        (fun e => (e.name, e.type, e.id)) = [("Beta", "tv", some "77")]
    rw [hm]
    simp [h1, h2, h3]
    decide
  · exact c4_episode_series_collapse.1
      ⟨"Episode", some "Ep1", some "e1", some "Beta", some "77", none⟩ rfl
      ⟨some "Beta", some "77", "tv", none, 0, false⟩ rfl
